import Mathlib

/-!
# io300: the file I/O layer of `fileio/impl/student.c`

A shallow embedding of `student.c` and of the test drivers that exercise it.

The functions of `student.c` forward every request to the operating system
(`open`, `read`, `write`, `lseek`, `close`).  The operating system is not part
of the repository; it is modelled here by `Backend`, the kernel's view of one
open regular file, following POSIX as Linux implements it:

* one `read` or `write` transfers at most `MAX_RW_COUNT` = 0x7ffff000 bytes,
  whatever the number requested;
* the file system has a file-size limit `maxbytes`: no offset beyond it can be
  set and no byte at or beyond it can be written;
* `read` transfers the bytes between the file offset and end-of-file, at most
  the number requested and at most `MAX_RW_COUNT`, and returns 0 at or past
  end-of-file;
* `write` of at least one byte stores the bytes at the file offset, as many as
  the two limits allow, after filling the gap between end-of-file and the
  offset with zero bytes; it fails when the offset is at the file-size limit;
  `write` of zero bytes has no effect; `write` on a descriptor opened
  `O_RDONLY` fails;
* `lseek(fd, pos, SEEK_SET)` fails for a negative `pos` and for a `pos` beyond
  the file-size limit, leaving the offset where it was, and otherwise moves
  the file offset to `pos`, which may lie past end-of-file.

Apart from these two limits transfers are never short, and an I/O error
happens exactly when the fault schedule of the descriptor says so.  Every
backend call is counted on the descriptor (`nread`, `nwrite`, `nlseek`,
`nclose`), so that statements about the number of system calls can be made.
-/

namespace Io300

/-! ## Data model -/

/-- One byte of file data (`unsigned char`). -/
abbrev Byte := Fin 256

/-- The kernel's view of one open regular file: the state behind a descriptor. -/
structure Backend where
  /-- contents of the file -/
  data : List Byte
  /-- file offset of the descriptor -/
  off : Nat
  /-- whether the descriptor was opened for writing (`O_RDWR` or `O_WRONLY`,
  otherwise `O_RDONLY`) -/
  writable : Bool
  /-- fault schedule: the head says whether the next backend call reports an
  I/O error; an empty schedule means that no further call does -/
  faults : List Bool
  /-- number of `read` calls issued on the descriptor -/
  nread : Nat
  /-- number of `write` calls issued on the descriptor -/
  nwrite : Nat
  /-- number of `lseek` calls issued on the descriptor -/
  nlseek : Nat
  /-- number of `close` calls issued on the descriptor -/
  nclose : Nat
  /-- file-size limit of the file system the file lives on (`s_maxbytes`) -/
  maxbytes : Nat
deriving DecidableEq, Repr

/-- Flags of `open(2)` used by `io300_open` and by `reference/reverse.c`. -/
inductive OFlag where
  | O_CREAT
  | O_SYNC
  | O_RDONLY
  | O_RDWR
  | O_TRUNC
  | O_WRONLY
deriving DecidableEq, Repr

/-- What one call of `io300_open` meets in its environment. -/
structure OpenEnv where
  /-- contents of the file at the path, `none` when there is no such file -/
  file : Option (List Byte)
  /-- the kernel refuses to open the path (permissions, missing directory,
  descriptor table full) -/
  refused : Bool
  /-- fault schedule of the descriptor that is opened -/
  faults : List Bool
  /-- whether `malloc(sizeof(struct io300_file))` succeeds -/
  malloc_file : Bool
  /-- whether `malloc(CACHE_SIZE)` succeeds -/
  malloc_cache : Bool
  /-- file-size limit of the file system the path lives on -/
  maxbytes : Nat
deriving DecidableEq, Repr

/-- Compile-time constants.  `MODE_READ` and `MODE_WRITE` are macros of
`io300.h`, which is not among the sources: they are parameters here.
`CACHE_SIZE` defaults to 8 in `student.c` and may be set by the build. -/
structure Config where
  MODE_READ : Int
  MODE_WRITE : Int
  CACHE_SIZE : Nat
deriving DecidableEq, Repr

/-- Counters of `struct io300_statistics`. -/
structure io300_statistics where
  read_calls : Int
  write_calls : Int
  seeks : Int
deriving DecidableEq, Repr

/-- The record `struct io300_file`.  A value of this type is a non-NULL file
whose cache buffer is allocated and whose descriptor came from a successful
`open`, which is what `check_invariants` asserts. -/
structure io300_file where
  /-- the descriptor, given by the kernel state behind it -/
  fd : Backend
  /-- capacity of the buffer `cache`; the code never reads or writes it -/
  cache : Nat
  description : String
  stats : io300_statistics
deriving DecidableEq, Repr

/-- Heap blocks that `io300_close` hands to `free`. -/
inductive Block where
  | cache
  | file
deriving DecidableEq, Repr

/-- Outcome of `io300_close`: its return value, the descriptor after
`close(fd)`, and the blocks passed to `free`, in order. -/
structure Closed where
  ret : Int
  fd : Backend
  freed : List Block
deriving DecidableEq, Repr

/-! ## The backend -/

/-- Whether the next backend call on the descriptor reports an I/O error. -/
def Backend.fault (k : Backend) : Bool :=
  k.faults.headD false

/-- The most bytes one `read` or `write` transfers on Linux (`MAX_RW_COUNT`,
`INT_MAX` rounded down to a page boundary): 0x7ffff000. -/
def MAX_RW_COUNT : Nat :=
  2147479552

/-- File-size limit of ext4 with 4 KiB blocks, `(2^32 - 1) * 4096`: the limit
of the file system in the examples. -/
def EXT4_MAXBYTES : Nat :=
  17592186040320

/-- Conversion of a value to `int` (32 bits, two's complement). -/
def to_int (x : Int) : Int :=
  (x + 2 ^ 31) % 2 ^ 32 - 2 ^ 31

/-- Contents of a file after storing `buf` at offset `off`: the gap between
end-of-file and `off` is filled with zero bytes. -/
def store (data : List Byte) (off : Nat) (buf : List Byte) : List Byte :=
  let d := data ++ List.replicate (off - data.length) 0
  d.take off ++ buf ++ d.drop (off + buf.length)

/-- The system call `open(path, flags, S_IRUSR | S_IWUSR)`; `none` is the
result -1.  The descriptor can be written to when it is opened `O_RDWR` or
`O_WRONLY`; that a descriptor opened `O_WRONLY` cannot be read from is not
tracked, no program modelled here reads from one. -/
def sys_open (env : OpenEnv) (flags : List OFlag) : Option Backend :=
  if env.refused then none
  else
    match env.file with
    | none =>
      if OFlag.O_CREAT ∈ flags then
        some ⟨[], 0, decide (OFlag.O_RDWR ∈ flags ∨ OFlag.O_WRONLY ∈ flags), env.faults,
          0, 0, 0, 0, env.maxbytes⟩
      else none
    | some d =>
      some ⟨if OFlag.O_TRUNC ∈ flags then [] else d, 0,
        decide (OFlag.O_RDWR ∈ flags ∨ OFlag.O_WRONLY ∈ flags), env.faults, 0, 0, 0, 0,
        env.maxbytes⟩

/-- The system call `read(fd, buf, sz)`: return value, bytes transferred, and
the descriptor afterwards.  At most `MAX_RW_COUNT` bytes are transferred. -/
def sys_read (k : Backend) (sz : Nat) : Int × List Byte × Backend :=
  let k1 := { k with nread := k.nread + 1, faults := k.faults.tail }
  if k.fault then (-1, [], k1)
  else
    let bs := (k.data.drop k.off).take (min sz MAX_RW_COUNT)
    ((bs.length : Int), bs, { k1 with off := k.off + bs.length })

/-- The system call `write(fd, buf, sz)` with the `sz` bytes `buf`: return
value and the descriptor afterwards.  A write of zero bytes has no effect; a
write at or beyond the file-size limit fails (`EFBIG`); otherwise the bytes
stored are the first ones of `buf`, at most `MAX_RW_COUNT` and at most as many
as fit below the file-size limit. -/
def sys_write (k : Backend) (buf : List Byte) : Int × Backend :=
  let k1 := { k with nwrite := k.nwrite + 1, faults := k.faults.tail }
  if k.fault || !k.writable then (-1, k1)
  else if buf.isEmpty then (0, k1)
  else if k.maxbytes ≤ k.off then (-1, k1)
  else
    let out := buf.take (min MAX_RW_COUNT (k.maxbytes - k.off))
    ((out.length : Int),
      { k1 with data := store k.data k.off out, off := k.off + out.length })

/-- The system call `lseek(fd, pos, SEEK_SET)`: it fails (`EINVAL`) for a
negative `pos` and for a `pos` beyond the file-size limit. -/
def sys_lseek (k : Backend) (pos : Int) : Int × Backend :=
  let k1 := { k with nlseek := k.nlseek + 1, faults := k.faults.tail }
  if k.fault || decide (pos < 0) || decide ((k.maxbytes : Int) < pos) then (-1, k1)
  else (pos, { k1 with off := pos.toNat })

/-- The system call `close(fd)`. -/
def sys_close (k : Backend) : Int × Backend :=
  let k1 := { k with nclose := k.nclose + 1, faults := k.faults.tail }
  if k.fault then (-1, k1) else (0, k1)

/-! ## `student.c` -/

/-- The `switch (mode)` of `io300_open`: the flags passed to `open`, `none`
for the `default` case. -/
def open_flags (cfg : Config) (mode : Int) : Option (List OFlag) :=
  let flags := [OFlag.O_CREAT, OFlag.O_SYNC]
  if mode = cfg.MODE_READ then some (OFlag.O_RDONLY :: flags)
  else if mode = cfg.MODE_WRITE then some (OFlag.O_RDWR :: OFlag.O_TRUNC :: flags)
  else if mode = Int.lor cfg.MODE_READ cfg.MODE_WRITE then some (OFlag.O_RDWR :: flags)
  else none

/-- The function `io300_open`: `none` is the result `NULL`. -/
def io300_open (cfg : Config) (env : OpenEnv) (path : Option String) (mode : Int)
    (description : String) : Option io300_file :=
  match path with
  | none => none
  | some _ =>
    match open_flags cfg mode with
    | none => none
    | some flags =>
      match sys_open env flags with
      | none => none
      | some fd =>
        if !env.malloc_file then none
        else if !env.malloc_cache then none
        else some ⟨fd, cfg.CACHE_SIZE, description, ⟨0, 0, 0⟩⟩

/-- The function `io300_seek`: the `int` it returns and the file afterwards. -/
def io300_seek (f : io300_file) (pos : Int) : Int × io300_file :=
  let f1 := { f with stats := { f.stats with seeks := f.stats.seeks + 1 } }
  let r := sys_lseek f1.fd pos
  (to_int r.1, { f1 with fd := r.2 })

/-- The function `io300_close`; the statistics it prints are left out. -/
def io300_close (f : io300_file) : Closed :=
  let r := sys_close f.fd
  ⟨0, r.2, [Block.cache, Block.file]⟩

/-- The function `io300_readc`. -/
def io300_readc (f : io300_file) : Int × io300_file :=
  let r := sys_read f.fd 1
  let f1 := { f with fd := r.2.2 }
  if r.1 = 1 then
    match r.2.1 with
    | c :: _ => ((c.val : Int), f1)
    | [] => (-1, f1)
  else (-1, f1)

/-- The function `io300_writec`. -/
def io300_writec (f : io300_file) (ch : Int) : Int × io300_file :=
  let c : Byte := Fin.ofNat (ch % 256).toNat
  let r := sys_write f.fd [c]
  let f1 := { f with fd := r.2 }
  if r.1 = 1 then ((c.val : Int), f1) else (-1, f1)

/-- The function `io300_read`: return value, the caller's buffer afterwards, and the file
afterwards.  The bytes transferred replace the front of `buff`. -/
def io300_read (f : io300_file) (buff : List Byte) (sz : Nat) :
    Int × List Byte × io300_file :=
  let r := sys_read f.fd sz
  (r.1, r.2.1 ++ buff.drop r.2.1.length, { f with fd := r.2.2 })

/-- The function `io300_write`: writes the first `sz` bytes of `buff`. -/
def io300_write (f : io300_file) (buff : List Byte) (sz : Nat) : Int × io300_file :=
  let r := sys_write f.fd (buff.take sz)
  (r.1, { f with fd := r.2 })

/-! ## Drivers -/

/-- Bytes of an ASCII string literal of the test programs. -/
def bytes (s : String) : List Byte :=
  s.toList.map fun c => Fin.ofNat c.toNat

/-- An environment in which the path holds `file`, the kernel grants the open,
no I/O error occurs, both allocations succeed and the file system is ext4 with
4 KiB blocks. -/
def OpenEnv.plain (file : Option (List Byte)) : OpenEnv :=
  ⟨file, false, [], true, true, EXT4_MAXBYTES⟩

/-- The configurations `student.c` and the `switch` of `io300_open` compile
with: the three case labels differ and `CACHE_SIZE` is at least 4. -/
def Config.wf (cfg : Config) : Prop :=
  cfg.MODE_READ ≠ cfg.MODE_WRITE ∧
  cfg.MODE_READ ≠ Int.lor cfg.MODE_READ cfg.MODE_WRITE ∧
  cfg.MODE_WRITE ≠ Int.lor cfg.MODE_READ cfg.MODE_WRITE ∧
  4 ≤ cfg.CACHE_SIZE

instance (cfg : Config) : Decidable cfg.wf := by
  unfold Config.wf
  infer_instance

/-- Modelled from the spec: the macro `MODE_RDWR` of `io300.h`, which the test
helpers pass to `io300_open` and which is not among the sources.  It is the
read-write mode of the spec, `MODE_READ|MODE_WRITE`, the one for which
`io300_open` opens the file `O_RDWR` without truncating it. -/
def MODE_RDWR (cfg : Config) : Int :=
  Int.lor cfg.MODE_READ cfg.MODE_WRITE

/-- The helper `create_file_from_bytes` of `unit_tests.c`: the file is made with the
given contents, then opened read-write. -/
def create_file_from_bytes (cfg : Config) (file_path : String) (contents : List Byte) :
    Option io300_file :=
  io300_open cfg (OpenEnv.plain (some contents)) (some file_path) (MODE_RDWR cfg) file_path

/-- The helper `create_empty_file` of `unit_tests.c`. -/
def create_empty_file (cfg : Config) (file_path : String) : Option io300_file :=
  io300_open cfg (OpenEnv.plain (some [])) (some file_path) (MODE_RDWR cfg) file_path

/-- What `rtest100_worksheet_example.c` observes. -/
structure Worksheet where
  read1 : Int
  buffer1 : List Byte
  write1 : Int
  read2 : Int
  write2 : Int
  readc : Int
  file : List Byte
deriving DecidableEq, Repr

/-- Body of `main` of `rtest100_worksheet_example.c`, from the opened file on. -/
def rtest100 (f : io300_file) : Worksheet :=
  let buffer : List Byte := List.replicate 5 0
  let r1 := io300_read f buffer 5
  let w1 := io300_write r1.2.2 (bytes "aaa") 3
  let r2 := io300_read w1.2 r1.2.1 2
  let s := io300_seek r2.2.2 12
  let w2 := io300_write s.2 (bytes "aaa") 3
  let c := io300_readc w2.2
  let cl := io300_close c.2
  ⟨r1.1, r1.2.1, w1.1, r2.1, w2.1, c.1, cl.fd.data⟩

/-- The configuration of the unit tests (`CACHE_SIZE` 8), with 1 and 2 for the
two mode bits. -/
def cfg8 : Config :=
  ⟨1, 2, 8⟩

/-- A file just opened read-write on the given contents, as the test helpers
return it. -/
def fresh (contents : List Byte) : io300_file :=
  ⟨⟨contents, 0, true, [], 0, 0, 0, 0, EXT4_MAXBYTES⟩, 8, "/tmp/testfile", ⟨0, 0, 0⟩⟩

/-- The calls `io300_seek(f, o)` and `io300_write(f, b, n)` with `n` the length
of `b`: what the write returns and the file afterwards. -/
def write_at (f : io300_file) (o : Int) (b : List Byte) : Int × io300_file :=
  io300_write (io300_seek f o).2 b b.length

/-- The calls `io300_seek(f, o)` and `io300_writec(f, ch)`. -/
def writec_at (f : io300_file) (o : Int) (ch : Int) : Int × io300_file :=
  io300_writec (io300_seek f o).2 ch

/-- The calls `io300_seek(f, o)` and `io300_read(f, buff, n)`. -/
def read_at (f : io300_file) (o : Int) (buff : List Byte) (n : Nat) :
    Int × List Byte × io300_file :=
  io300_read (io300_seek f o).2 buff n

/-- A call of the public interface, as issued by a driver. -/
inductive Call where
  | seek (pos : Int)
  | readc
  | writec (ch : Int)
  | read (buff : List Byte) (sz : Nat)
  | write (buff : List Byte) (sz : Nat)
deriving DecidableEq, Repr

/-- The file after one call. -/
def run_call (f : io300_file) : Call → io300_file
  | Call.seek pos => (io300_seek f pos).2
  | Call.readc => (io300_readc f).2
  | Call.writec ch => (io300_writec f ch).2
  | Call.read buff sz => (io300_read f buff sz).2.2
  | Call.write buff sz => (io300_write f buff sz).2

/-- The file after a sequence of calls, issued in order. -/
def run_calls (f : io300_file) (calls : List Call) : io300_file :=
  calls.foldl run_call f

/-- Number of `io300_seek` calls in a sequence. -/
def count_seeks (calls : List Call) : Nat :=
  calls.countP fun c => match c with
    | Call.seek _ => true
    | _ => false

/-- The file after `n` calls of `io300_readc`. -/
def readc_times (f : io300_file) : Nat → io300_file
  | 0 => f
  | n + 1 => (io300_readc (readc_times f n)).2

/-- The file after one `io300_read` call for each of the sizes, in order. -/
def read_sizes (f : io300_file) (buff : List Byte) : List Nat → io300_file
  | [] => f
  | sz :: rest =>
    let r := io300_read f buff sz
    read_sizes r.2.2 r.2.1 rest

/-- Result of running a driver. -/
inductive Run (α : Type) where
  | done (a : α)
  | aborted
  | out_of_fuel
deriving DecidableEq, Repr

/-- The block cat loop of `rtest101_ascii_independence.c` with block size
`k`; each iteration takes one unit of `fuel`.  A failed write ends in
`assert(0)`. -/
def block_cat : Nat → io300_file → io300_file → List Byte → Nat →
    Run (io300_file × io300_file)
  | 0, _, _, _, _ => Run.out_of_fuel
  | fuel + 1, inf, outf, buffer, k =>
    let r := io300_read inf buffer k
    if r.1 = 0 ∨ r.1 = -1 then Run.done (r.2.2, outf)
    else
      let w := io300_write outf r.2.1 r.1.toNat
      if w.1 = -1 then Run.aborted
      else block_cat fuel r.2.2 w.2 r.2.1 k

/-- The function `main` of `rtest101_ascii_independence.c` with block size `k`: the input
file holds `contents`, the output path holds `old`; the result is the two
closed files. -/
def rtest101 (cfg : Config) (fuel : Nat) (k : Nat) (contents : List Byte)
    (old : Option (List Byte)) (buffer : List Byte) : Run (Closed × Closed) :=
  match io300_open cfg (OpenEnv.plain (some contents)) (some "/tmp/testfile")
      cfg.MODE_READ "in",
    io300_open cfg (OpenEnv.plain old) (some "/tmp/testfile2") cfg.MODE_WRITE "out" with
  | some inf, some outf =>
    match block_cat fuel inf outf buffer k with
    | Run.done (inf1, outf1) => Run.done (io300_close inf1, io300_close outf1)
    | Run.aborted => Run.aborted
    | Run.out_of_fuel => Run.out_of_fuel
  | _, _ => Run.aborted

/-! ## The logical file

The contents and position that the calls of a driver describe, independently
of any descriptor. -/

/-- Logical state of a file: its contents and the position the next read or
write acts on. -/
structure Logical where
  contents : List Byte
  position : Nat
deriving DecidableEq, Repr

/-- The contents with byte `c` placed at position `p`; positions never written
before read as zero. -/
def put_byte (s : List Byte) (p : Nat) (c : Byte) : List Byte :=
  (s ++ List.replicate (p + 1 - s.length) 0).set p c

/-- The contents with the bytes `b` placed from position `p` on, one after the
other. -/
def put_bytes (s : List Byte) (p : Nat) : List Byte → List Byte
  | [] => s
  | c :: rest => put_bytes (put_byte s p c) (p + 1) rest

/-- Effect of one call on the logical file. -/
def Logical.step (l : Logical) : Call → Logical
  | Call.seek pos => if pos < 0 then l else ⟨l.contents, pos.toNat⟩
  | Call.readc => ⟨l.contents, if l.position < l.contents.length then l.position + 1 else l.position⟩
  | Call.writec ch => ⟨put_byte l.contents l.position (Fin.ofNat (ch % 256).toNat), l.position + 1⟩
  | Call.read _ sz => ⟨l.contents, l.position + min sz (l.contents.length - l.position)⟩
  | Call.write buff sz =>
    ⟨put_bytes l.contents l.position (buff.take sz), l.position + (buff.take sz).length⟩

/-- Effect of a sequence of calls on the logical file. -/
def Logical.run (l : Logical) (calls : List Call) : Logical :=
  calls.foldl Logical.step l

/-- Whether a call stays within the limits of the backend, for a file system
with file-size limit `mx` and the logical file `l`: a seek does not go beyond
`mx`, a write ends at or below `mx`, and a read or write is of at most
`MAX_RW_COUNT` bytes. -/
def Call.fits (mx : Nat) (l : Logical) : Call → Bool
  | Call.seek pos => decide (pos ≤ (mx : Int))
  | Call.readc => true
  | Call.writec _ => decide (l.position < mx)
  | Call.read _ sz => decide (sz ≤ MAX_RW_COUNT)
  | Call.write buff sz =>
    decide ((buff.take sz).length ≤ MAX_RW_COUNT ∧ l.position + (buff.take sz).length ≤ mx)

/-- Whether every call of a sequence stays within the limits of the backend,
each at the logical file it is issued on. -/
def calls_fit (mx : Nat) (l : Logical) : List Call → Bool
  | [] => true
  | c :: rest => c.fits mx l && calls_fit mx (l.step c) rest

/-- A file opened read-write on the given contents whose next backend call
reports an I/O error: `io300_open` returns it for an environment with the
fault schedule `[true]`. -/
def failing (contents : List Byte) : io300_file :=
  ⟨⟨contents, 0, true, [true], 0, 0, 0, 0, EXT4_MAXBYTES⟩, 8, "/tmp/testfile", ⟨0, 0, 0⟩⟩

/-! ## `reference/rot13.c` -/

/-- The function `rot13` of `reference/rot13.c`.  The arithmetic is done in
`int`; in the two letter branches `ch - 'A'` and `ch - 'a'` are not negative,
and the result is converted back to `unsigned char`. -/
def rot13 (ch : Byte) : Byte :=
  if 65 ≤ ch.val ∧ ch.val ≤ 90 then
    Fin.ofNat (65 + ((ch.val - 65) + 13) % 26)
  else if 97 ≤ ch.val ∧ ch.val ≤ 122 then
    Fin.ofNat (97 + ((ch.val - 97) + 13) % 26)
  else ch

/-! ## `reference/reverse.c` -/

/-- The macro `DEFAULT_BLOCK_SIZE` of `reference/reverse.c`. -/
def DEFAULT_BLOCK_SIZE : Nat :=
  8192

/-- The system call `fstat(fd, &s)` on a regular file: the return value and
`s.st_size`. -/
def sys_fstat (k : Backend) : Int × Nat × Backend :=
  let k1 := { k with faults := k.faults.tail }
  if k.fault then (-1, 0, k1) else (0, k.data.length, k1)

/-- The function `get_file_size` of `reference/reverse.c`; `none` is
`exit(1)`.  Every file of the model is a regular file. -/
def get_file_size (k : Backend) : Option (Nat × Backend) :=
  let r := sys_fstat k
  if r.1 ≥ 0 then some (r.2.1, r.2.2) else none

/-- The variable `buffer_size` of `main` in `reference/reverse.c`: `block` is
the `int` that `atoi(argv[1])` returns when a block size is given, converted
to `size_t`. -/
def reverse_buffer_size (block : Option Int) : Nat :=
  match block with
  | none => DEFAULT_BLOCK_SIZE
  | some v => (v % 2 ^ 64).toNat

/-- The `for` loop of `main` in `reference/reverse.c`, from the test `i >= 0`
on; each test takes one unit of `fuel`.  The result is `rv` and the two
descriptors. -/
def reverse_loop : Nat → Int → Nat → Backend → Backend → List Byte → List Byte →
    Run (Int × Backend × Backend)
  | 0, _, _, _, _, _, _ => Run.out_of_fuel
  | fuel + 1, i, buffer_size, ifd, ofd, in_buffer, out_buffer =>
    if i ≥ 0 then
      let l := sys_lseek ifd i
      if l.1 = -1 then Run.done (1, l.2, ofd)
      else
        let r := sys_read l.2 buffer_size
        let n := to_int r.1
        let in_buffer1 := r.2.1 ++ in_buffer.drop r.2.1.length
        if n = -1 then Run.done (0, r.2.2, ofd)
        else
          let out_buffer1 := (in_buffer1.take n.toNat).reverse ++ out_buffer.drop n.toNat
          let w := sys_write ofd (out_buffer1.take (n % 2 ^ 64).toNat)
          if w.1 = -1 then Run.done (1, r.2.2, w.2)
          else
            reverse_loop fuel (to_int (i - buffer_size)) buffer_size r.2.2 w.2 in_buffer1
              out_buffer1
    else Run.done (0, ifd, ofd)

/-- The function `main` of `reference/reverse.c`, after the parsing of the
arguments: `infile` and `outfile` are what the two paths hold, `in_buffer` and
`out_buffer` what the two calls of `malloc` return.  The result is the exit
status and the output descriptor after `close`, when it was opened; a block
size of 0 divides by zero. -/
def reverse_main (fuel : Nat) (block : Option Int) (infile outfile : OpenEnv)
    (in_buffer out_buffer : Option (List Byte)) : Run (Int × Option Backend) :=
  let buffer_size := reverse_buffer_size block
  match sys_open infile [OFlag.O_RDONLY] with
  | none => Run.done (1, none)
  | some ifd =>
    match sys_open outfile [OFlag.O_CREAT, OFlag.O_WRONLY, OFlag.O_TRUNC] with
    | none => Run.done (1, none)
    | some ofd =>
      match get_file_size ifd with
      | none => Run.done (1, some ofd)
      | some (file_size, ifd1) =>
        match in_buffer, out_buffer with
        | some inb, some outb =>
          if buffer_size = 0 then Run.aborted
          else
            match reverse_loop fuel (to_int (file_size - file_size % buffer_size)) buffer_size
                ifd1 ofd inb outb with
            | Run.done (rv, ifd2, ofd2) =>
              let _c := sys_close ifd2
              Run.done (rv, some (sys_close ofd2).2)
            | Run.aborted => Run.aborted
            | Run.out_of_fuel => Run.out_of_fuel
        | _, _ => Run.done (1, some ofd)

/-! ## Lemmas on the backend -/

theorem store_length (d : List Byte) (o : Nat) (b : List Byte) :
    (store d o b).length = max (o + b.length) d.length := by
  simp only [store, List.length_append, List.length_take, List.length_drop,
    List.length_replicate]
  omega

theorem store_getElem_opt (d : List Byte) (o : Nat) (b : List Byte) (i : Nat) :
    (store d o b)[i]? =
      if i < o then (if i < d.length then d[i]? else some 0)
      else if i < o + b.length then b[i - o]? else d[i]? := by
  have hlen : (List.take o (d ++ List.replicate (o - d.length) (0 : Byte))).length = o := by
    simp only [List.length_take, List.length_append, List.length_replicate]; omega
  unfold store
  simp only []
  rw [List.append_assoc]
  by_cases h1 : i < o
  · rw [List.getElem?_append_left (by omega)]
    simp only [h1, if_true]
    rw [List.getElem?_take_of_lt h1]
    by_cases h2 : i < d.length
    · simp only [h2, if_true]
      rw [List.getElem?_append_left h2]
    · simp only [h2, if_false]
      rw [List.getElem?_append_right (by omega)]
      rw [List.getElem?_replicate]
      simp; omega
  · rw [List.getElem?_append_right (by omega)]
    simp only [h1, if_false, hlen]
    by_cases h2 : i < o + b.length
    · simp only [h2, if_true]
      rw [List.getElem?_append_left (by omega)]
    · simp only [h2, if_false]
      rw [List.getElem?_append_right (by omega)]
      rw [List.getElem?_drop]
      have : o + b.length + (i - o - b.length) = i := by omega
      rw [this]
      by_cases h3 : i < d.length
      · rw [List.getElem?_append_left h3]
      · rw [List.getElem?_append_right (by omega)]
        rw [List.getElem?_replicate]
        have : ¬ (i - d.length < o - d.length) := by omega
        simp only [this, if_false]
        rw [List.getElem?_eq_none (by omega)]

/-- Reading back what was stored: the bytes from `o` on start with `b`. -/
theorem store_drop_take (d : List Byte) (o : Nat) (b : List Byte) :
    ((store d o b).drop o).take b.length = b := by
  apply List.ext_getElem?
  intro i
  by_cases h : i < b.length
  · rw [List.getElem?_take_of_lt h, List.getElem?_drop, store_getElem_opt]
    have h1 : ¬ (o + i < o) := by omega
    have h2 : o + i < o + b.length := by omega
    simp only [h1, h2, if_false, if_true]
    congr 1
    omega
  · rw [List.getElem?_eq_none (by simp only [List.length_take]; omega),
      List.getElem?_eq_none (by omega)]

theorem put_byte_eq_store (s : List Byte) (p : Nat) (c : Byte) :
    put_byte s p c = store s p [c] := by
  apply List.ext_getElem?
  intro i
  rw [store_getElem_opt]
  unfold put_byte
  rw [List.getElem?_set]
  by_cases h0 : p = i
  · subst h0
    have : p < s.length + (p + 1 - s.length) := by omega
    simp [this]
  · simp only [h0, if_false, List.length_singleton]
    by_cases h1 : i < p
    · simp only [h1, if_true]
      by_cases h2 : i < s.length
      · simp only [h2, if_true]
        rw [List.getElem?_append_left h2]
      · simp only [h2, if_false]
        rw [List.getElem?_append_right (by omega), List.getElem?_replicate]
        simp; omega
    · have h3 : ¬ (i < p + 1) := by omega
      simp only [h1, h3, if_false]
      by_cases h2 : i < s.length
      · rw [List.getElem?_append_left h2]
      · rw [List.getElem?_append_right (by omega), List.getElem?_replicate]
        have : ¬ (i - s.length < p + 1 - s.length) := by omega
        simp only [this, if_false]
        rw [List.getElem?_eq_none (by omega)]

theorem store_store (d : List Byte) (o : Nat) (c : Byte) (rest : List Byte) :
    store (store d o [c]) (o + 1) rest = store d o (c :: rest) := by
  apply List.ext_getElem?
  intro i
  simp only [store_getElem_opt, store_length, List.length_cons, List.length_nil, Nat.zero_add]
  by_cases h1 : i < o
  · have h2 : i < o + 1 := by omega
    have h3 : i < max (o + 1) d.length := by omega
    simp only [h1, h2, h3, if_true]
  · by_cases h2 : i = o
    · subst h2
      have h3 : i < max (i + 1) d.length := by omega
      simp [h3]
    · have h3 : ¬ (i < o + 1) := by omega
      simp only [h1, h3, if_false]
      by_cases h4 : i < o + 1 + rest.length
      · have h5 : i < o + (rest.length + 1) := by omega
        simp only [h4, h5, if_true]
        have : i - o = (i - (o + 1)) + 1 := by omega
        rw [this, List.getElem?_cons_succ]
      · have h5 : ¬ (i < o + (rest.length + 1)) := by omega
        simp only [h4, h5, if_false]

/-- Placing bytes one after the other is what `store` does in one step. -/
theorem put_bytes_eq_store (b : List Byte) :
    ∀ (d : List Byte) (o : Nat), b ≠ [] → put_bytes d o b = store d o b := by
  induction b with
  | nil => intro d o h; exact absurd rfl h
  | cons c rest ih =>
    intro d o _
    simp only [put_bytes]
    by_cases hr : rest = []
    · subst hr
      simp only [put_bytes]
      exact put_byte_eq_store d o c
    · rw [ih _ _ hr, put_byte_eq_store, store_store]

/-! ### The calls on a descriptor that meets no I/O error -/

theorem min_one_cap : min 1 MAX_RW_COUNT = 1 := by
  decide

theorem seek_ok (data : List Byte) (off : Nat) (w : Bool) (nr nw nl nc mx cache : Nat)
    (desc : String) (rc wc sk : Int) (o : Nat) (ho : o ≤ mx) :
    io300_seek ⟨⟨data, off, w, [], nr, nw, nl, nc, mx⟩, cache, desc, ⟨rc, wc, sk⟩⟩ (o : Int) =
      (to_int o, ⟨⟨data, o, w, [], nr, nw, nl + 1, nc, mx⟩, cache, desc, ⟨rc, wc, sk + 1⟩⟩) := by
  have h0 : ¬ ((o : Int) < 0) := by omega
  have h1 : ¬ ((mx : Int) < (o : Int)) := by omega
  simp [io300_seek, sys_lseek, Backend.fault, h0, h1]

theorem seek_fail (data : List Byte) (off : Nat) (w : Bool) (nr nw nl nc mx cache : Nat)
    (desc : String) (rc wc sk : Int) (pos : Int) (h : pos < 0 ∨ (mx : Int) < pos) :
    io300_seek ⟨⟨data, off, w, [], nr, nw, nl, nc, mx⟩, cache, desc, ⟨rc, wc, sk⟩⟩ pos =
      (to_int (-1),
        ⟨⟨data, off, w, [], nr, nw, nl + 1, nc, mx⟩, cache, desc, ⟨rc, wc, sk + 1⟩⟩) := by
  simp [io300_seek, sys_lseek, Backend.fault, h]

/-- A write of at least one byte below the file-size limit stores the bytes
the two limits allow. -/
theorem write_gen (b : List Byte) (sz : Nat) (hb : b.take sz ≠ []) (data : List Byte)
    (off : Nat) (nr nw nl nc mx cache : Nat) (desc : String) (st : io300_statistics)
    (hoff : off < mx) :
    io300_write ⟨⟨data, off, true, [], nr, nw, nl, nc, mx⟩, cache, desc, st⟩ b sz =
      ((((b.take sz).take (min MAX_RW_COUNT (mx - off))).length : Int),
        ⟨⟨store data off ((b.take sz).take (min MAX_RW_COUNT (mx - off))),
            off + ((b.take sz).take (min MAX_RW_COUNT (mx - off))).length, true, [], nr, nw + 1,
            nl, nc, mx⟩,
          cache, desc, st⟩) := by
  have h1 : ¬ (mx ≤ off) := by omega
  simp [io300_write, sys_write, Backend.fault, hb, h1]

theorem write_ok (b : List Byte) (sz : Nat) (hb : b.take sz ≠ []) (data : List Byte)
    (off : Nat) (nr nw nl nc mx cache : Nat) (desc : String) (st : io300_statistics)
    (hcap : (b.take sz).length ≤ MAX_RW_COUNT) (hmx : off + (b.take sz).length ≤ mx) :
    io300_write ⟨⟨data, off, true, [], nr, nw, nl, nc, mx⟩, cache, desc, st⟩ b sz =
      (((b.take sz).length : Int),
        ⟨⟨store data off (b.take sz), off + (b.take sz).length, true, [], nr, nw + 1, nl, nc,
            mx⟩,
          cache, desc, st⟩) := by
  have hpos : 0 < (b.take sz).length := List.length_pos.mpr hb
  have hfull : (b.take sz).take (min MAX_RW_COUNT (mx - off)) = b.take sz :=
    List.take_of_length_le (by omega)
  rw [write_gen b sz hb data off nr nw nl nc mx cache desc st (by omega), hfull]

theorem write_nil (b : List Byte) (sz : Nat) (hb : b.take sz = []) (data : List Byte)
    (off : Nat) (nr nw nl nc mx cache : Nat) (desc : String) (st : io300_statistics) :
    io300_write ⟨⟨data, off, true, [], nr, nw, nl, nc, mx⟩, cache, desc, st⟩ b sz =
      (0, ⟨⟨data, off, true, [], nr, nw + 1, nl, nc, mx⟩, cache, desc, st⟩) := by
  simp [io300_write, sys_write, Backend.fault, hb]

/-- A read transfers what lies between the offset and end-of-file, at most
the number requested and at most `MAX_RW_COUNT`. -/
theorem read_gen (data : List Byte) (off : Nat) (w : Bool) (nr nw nl nc mx cache : Nat)
    (desc : String) (st : io300_statistics) (buff : List Byte) (sz : Nat) :
    io300_read ⟨⟨data, off, w, [], nr, nw, nl, nc, mx⟩, cache, desc, st⟩ buff sz =
      ((((data.drop off).take (min sz MAX_RW_COUNT)).length : Int),
        (data.drop off).take (min sz MAX_RW_COUNT)
          ++ buff.drop ((data.drop off).take (min sz MAX_RW_COUNT)).length,
        ⟨⟨data, off + ((data.drop off).take (min sz MAX_RW_COUNT)).length, w, [], nr + 1, nw,
            nl, nc, mx⟩,
          cache, desc, st⟩) := by
  simp [io300_read, sys_read, Backend.fault]

theorem read_ok (data : List Byte) (off : Nat) (w : Bool) (nr nw nl nc mx cache : Nat)
    (desc : String) (st : io300_statistics) (buff : List Byte) (sz : Nat)
    (hsz : sz ≤ MAX_RW_COUNT) :
    io300_read ⟨⟨data, off, w, [], nr, nw, nl, nc, mx⟩, cache, desc, st⟩ buff sz =
      ((((data.drop off).take sz).length : Int),
        (data.drop off).take sz ++ buff.drop ((data.drop off).take sz).length,
        ⟨⟨data, off + ((data.drop off).take sz).length, w, [], nr + 1, nw, nl, nc, mx⟩,
          cache, desc, st⟩) := by
  rw [read_gen, Nat.min_eq_left hsz]

theorem writec_ok (data : List Byte) (off : Nat) (nr nw nl nc mx cache : Nat)
    (desc : String) (st : io300_statistics) (ch : Int) (hoff : off < mx) :
    io300_writec ⟨⟨data, off, true, [], nr, nw, nl, nc, mx⟩, cache, desc, st⟩ ch =
      (ch % 256,
        ⟨⟨store data off [Fin.ofNat (ch % 256).toNat], off + 1, true, [], nr, nw + 1, nl, nc,
            mx⟩,
          cache, desc, st⟩) := by
  have h : (((Fin.ofNat (ch % 256).toNat : Byte).val : Nat) : Int) = ch % 256 := by
    simp only [Fin.ofNat, Fin.val_mk]
    omega
  have h1 : ¬ (mx ≤ off) := by omega
  have h2 : List.take (min MAX_RW_COUNT (mx - off)) [(Fin.ofNat (ch % 256).toNat : Byte)]
      = [Fin.ofNat (ch % 256).toNat] := by
    apply List.take_of_length_le
    unfold MAX_RW_COUNT
    simp only [List.length_singleton]
    omega
  simp only [io300_writec, sys_write, Backend.fault, List.headD_nil, List.tail_nil, h1, h2,
    Bool.false_or, Bool.not_true, Bool.false_eq_true, if_false, List.isEmpty_cons,
    List.length_singleton, Nat.cast_one, if_true, h]

theorem drop_take_one (l : List Byte) (p : Nat) (x : Byte) (h : l[p]? = some x) :
    (l.drop p).take 1 = [x] := by
  obtain ⟨hp, hx⟩ := List.getElem?_eq_some_iff.mp h
  rw [List.drop_eq_getElem_cons hp, hx]
  rfl

theorem readc_ok (c : Byte) (data : List Byte) (off : Nat) (h : data[off]? = some c)
    (w : Bool) (nr nw nl nc mx cache : Nat) (desc : String) (st : io300_statistics) :
    io300_readc ⟨⟨data, off, w, [], nr, nw, nl, nc, mx⟩, cache, desc, st⟩ =
      ((c.val : Int), ⟨⟨data, off + 1, w, [], nr + 1, nw, nl, nc, mx⟩, cache, desc, st⟩) := by
  simp [io300_readc, sys_read, Backend.fault, min_one_cap, drop_take_one data off c h]

theorem readc_eof (data : List Byte) (off : Nat) (h : data.length ≤ off)
    (w : Bool) (nr nw nl nc mx cache : Nat) (desc : String) (st : io300_statistics) :
    io300_readc ⟨⟨data, off, w, [], nr, nw, nl, nc, mx⟩, cache, desc, st⟩ =
      (-1, ⟨⟨data, off, w, [], nr + 1, nw, nl, nc, mx⟩, cache, desc, st⟩) := by
  simp [io300_readc, sys_read, Backend.fault, List.drop_eq_nil_of_le h]

/-- Closing a file leaves the bytes of the backend file as they are. -/
theorem close_data (f : io300_file) : (io300_close f).fd.data = f.fd.data := by
  unfold io300_close sys_close
  dsimp only
  split <;> rfl

/-! ### C1 -/

/-- C1, as the code and the backend have it (round trip): on a file opened
read-write whose backend reports no error, at any moment, for every byte
sequence `b` of length `n <= 0x7ffff000` and every offset `o` with `o + n`
within the file-size limit, `io300_seek(f, o); io300_write(f, b, n);
io300_seek(f, o); io300_read(f, buf, n)` makes `io300_write` return `n`,
`io300_read` return `n`, and leaves the first `n` bytes of `buf` equal to `b`,
whatever the file held and whatever `buf` held before. -/
theorem round_trip (f : io300_file) (o : Nat) (b buff : List Byte)
    (hw : f.fd.writable = true) (hf : f.fd.faults = [])
    (hn : b.length ≤ MAX_RW_COUNT) (ho : o + b.length ≤ f.fd.maxbytes) :
    (write_at f o b).1 = b.length ∧
    (read_at (write_at f o b).2 o buff b.length).1 = b.length ∧
    (read_at (write_at f o b).2 o buff b.length).2.1.take b.length = b := by
  obtain ⟨⟨data, off, w, faults, nr, nw, nl, nc, mx⟩, cache, desc, ⟨rc, wc, sk⟩⟩ := f
  simp only at hw hf ho
  subst hw hf
  have ho2 : o ≤ mx := by omega
  unfold read_at write_at
  by_cases hb : b = []
  · subst hb
    simp [seek_ok _ _ _ _ _ _ _ _ _ _ _ _ _ _ ho2, write_nil [] _ List.take_nil, read_gen]
  · have hb2 : b.take b.length ≠ [] := by rwa [List.take_length]
    have key := store_drop_take data o b
    have hn2 : (b.take b.length).length ≤ MAX_RW_COUNT := by rwa [List.take_length]
    have ho3 : o + (b.take b.length).length ≤ mx := by rwa [List.take_length]
    simp only [seek_ok _ _ _ _ _ _ _ _ _ _ _ _ _ _ ho2,
      write_ok b b.length hb2 _ _ _ _ _ _ _ _ _ _ hn2 ho3,
      read_ok _ _ _ _ _ _ _ _ _ _ _ _ _ hn, List.take_length, key, List.take_left', true_and]

/-- Witness of C1: "aaa" written at offset 5 of "this is a test" reads back. -/
theorem round_trip_witness :
    ((fresh (bytes "this is a test")).fd.writable = true ∧
      (fresh (bytes "this is a test")).fd.faults = [] ∧
      (bytes "aaa").length ≤ MAX_RW_COUNT ∧
      5 + (bytes "aaa").length ≤ (fresh (bytes "this is a test")).fd.maxbytes) ∧
    (write_at (fresh (bytes "this is a test")) 5 (bytes "aaa")).1 = 3 ∧
    (read_at (write_at (fresh (bytes "this is a test")) 5 (bytes "aaa")).2 5
      (bytes "xyzw") 3).1 = 3 ∧
    (read_at (write_at (fresh (bytes "this is a test")) 5 (bytes "aaa")).2 5
      (bytes "xyzw") 3).2.1.take 3 = bytes "aaa" :=
  ⟨⟨rfl, rfl, by decide, by decide⟩,
    round_trip (fresh (bytes "this is a test")) 5 (bytes "aaa") (bytes "xyzw") rfl rfl
      (by decide) (by decide)⟩

/-- On a fresh empty file, a write of 0x7ffff000 bytes or more at an offset
that leaves room for them returns 0x7ffff000. -/
theorem write_at_short (o : Nat) (b : List Byte) (hb : MAX_RW_COUNT ≤ b.length)
    (ho : o + MAX_RW_COUNT ≤ EXT4_MAXBYTES) :
    (write_at (fresh []) (o : Int) b).1 = (MAX_RW_COUNT : Int) := by
  have hne : b.take b.length ≠ [] := by
    rw [List.take_length]
    apply List.ne_nil_of_length_pos
    unfold MAX_RW_COUNT at hb
    omega
  have hcap : 0 < MAX_RW_COUNT := by decide
  unfold write_at fresh
  simp only [seek_ok _ _ _ _ _ _ _ _ _ _ _ _ _ _ (show o ≤ EXT4_MAXBYTES by omega),
    write_gen b b.length hne _ _ _ _ _ _ _ _ _ _ (show o < EXT4_MAXBYTES by omega),
    List.take_length, List.length_take]
  congr 1
  omega

/-- C1 as stated fails for a write of more than 0x7ffff000 bytes and for an
offset beyond the file-size limit: on a fresh empty file, `io300_write` of
2^31 bytes at offset 0 returns 0x7ffff000; and with `o = 2^44` the seeks fail,
the one byte is written at offset 0 and the `io300_read` of 1 byte returns 0. -/
theorem round_trip_counterexample :
    (List.replicate 2147483648 (0 : Byte)).length = 2147483648 ∧
    (write_at (fresh []) ((0 : Nat) : Int) (List.replicate 2147483648 0)).1 = 2147479552 ∧
    (write_at (fresh []) 17592186044416 [89]).1 = 1 ∧
    (write_at (fresh []) 17592186044416 [89]).2.fd.off = 1 ∧
    (read_at (write_at (fresh []) 17592186044416 [89]).2 17592186044416 [0] 1).1 = 0 :=
  ⟨List.length_replicate _ _,
    write_at_short 0 (List.replicate 2147483648 0)
      (by rw [List.length_replicate]; decide) (by decide),
    by decide, by decide, by decide⟩

/-! ### C2 -/

/-- C2, as the code and the backend have it: on a file of length `L` opened
read-write whose backend reports no error, and for every offset `o > L` below
the file-size limit, `io300_seek(f, o)` followed by `io300_writec`, or by
`io300_write` of at least one byte, succeeds; `io300_write` returns the number
of bytes written, which is the length of `b` cut down to 0x7ffff000 and to the
room below the file-size limit; afterwards every position `p` with
`L <= p < o` reads back as the byte 0, both through `io300_read` after seeking
to `p` and in the file after `io300_close`, and the length of the file is `o`
plus the number of bytes written. -/
theorem zero_fill (f : io300_file) (o : Nat) (ch : Int) (b buff : List Byte)
    (hw : f.fd.writable = true) (hf : f.fd.faults = [])
    (ho : f.fd.data.length < o) (homx : o < f.fd.maxbytes) (hb : b ≠ []) :
    ((writec_at f o ch).1 = ch % 256 ∧
      (io300_close (writec_at f o ch).2).fd.data.length = o + 1 ∧
      ∀ p : Nat, f.fd.data.length ≤ p → p < o →
        (read_at (writec_at f o ch).2 p buff 1).1 = 1 ∧
        (read_at (writec_at f o ch).2 p buff 1).2.1.head? = some 0 ∧
        (io300_close (writec_at f o ch).2).fd.data[p]? = some 0) ∧
    ((write_at f o b).1 = (min b.length (min MAX_RW_COUNT (f.fd.maxbytes - o)) : Nat) ∧
      1 ≤ min b.length (min MAX_RW_COUNT (f.fd.maxbytes - o)) ∧
      (b.length ≤ MAX_RW_COUNT → o + b.length ≤ f.fd.maxbytes →
        (write_at f o b).1 = b.length) ∧
      (io300_close (write_at f o b).2).fd.data.length
        = o + min b.length (min MAX_RW_COUNT (f.fd.maxbytes - o)) ∧
      ∀ p : Nat, f.fd.data.length ≤ p → p < o →
        (read_at (write_at f o b).2 p buff 1).1 = 1 ∧
        (read_at (write_at f o b).2 p buff 1).2.1.head? = some 0 ∧
        (io300_close (write_at f o b).2).fd.data[p]? = some 0) := by
  obtain ⟨⟨data, off, w, faults, nr, nw, nl, nc, mx⟩, cache, desc, ⟨rc, wc, sk⟩⟩ := f
  simp only at hw hf ho homx
  subst hw hf
  have hb2 : b.take b.length ≠ [] := by rwa [List.take_length]
  have hbpos : 0 < b.length := List.length_pos.mpr hb
  have hcap : 0 < MAX_RW_COUNT := by decide
  have gap : ∀ (c : List Byte) (p : Nat), data.length ≤ p → p < o →
      (store data o c)[p]? = some 0 := by
    intro c p h1 h2
    rw [store_getElem_opt]
    have h3 : ¬ (p < data.length) := by omega
    simp only [h2, h3, if_true, if_false]
  have hseek : ∀ p : Nat, p ≤ o → p ≤ mx := fun p hp => by omega
  have hlen : (List.take (min MAX_RW_COUNT (mx - o)) b).length
      = min b.length (min MAX_RW_COUNT (mx - o)) := by
    rw [List.length_take, Nat.min_comm]
  unfold read_at write_at writec_at
  simp only [seek_ok _ _ _ _ _ _ _ _ _ _ _ _ _ _ (hseek o (Nat.le_refl o)),
    writec_ok _ _ _ _ _ _ _ _ _ _ _ homx,
    write_gen b b.length hb2 _ _ _ _ _ _ _ _ _ _ homx, close_data,
    List.take_length, store_length, List.length_singleton, hlen]
  refine ⟨⟨trivial, by omega, ?_⟩, ⟨trivial, by omega, ?_, by omega, ?_⟩⟩
  · intro p h1 h2
    have g := gap [Fin.ofNat (ch % 256).toNat] p h1 h2
    simp only [seek_ok _ _ _ _ _ _ _ _ _ _ _ _ _ _ (hseek p (Nat.le_of_lt h2)),
      read_ok _ _ _ _ _ _ _ _ _ _ _ _ 1 hcap, drop_take_one _ _ _ g]
    simp [g]
  · intro h1 h2
    congr 1
    omega
  · intro p h1 h2
    have g := gap (List.take (min MAX_RW_COUNT (mx - o)) b) p h1 h2
    simp only [seek_ok _ _ _ _ _ _ _ _ _ _ _ _ _ _ (hseek p (Nat.le_of_lt h2)),
      read_ok _ _ _ _ _ _ _ _ _ _ _ _ 1 hcap, drop_take_one _ _ _ g]
    simp [g]

/-- Witness of C2 (`rtest102`, `rtest103`): on the empty file, `writec` of
'Y' at 5 and `write` of ten 'a' at 5 leave zero bytes below offset 5. -/
theorem zero_fill_witness :
    ((fresh []).fd.writable = true ∧ (fresh []).fd.faults = [] ∧
      (fresh []).fd.data.length < 5 ∧ 5 < (fresh []).fd.maxbytes ∧
      bytes "aaaaaaaaaa" ≠ []) ∧
    ((writec_at (fresh []) 5 89).1 = 89 ∧
      (io300_close (writec_at (fresh []) 5 89).2).fd.data.length = 6) ∧
    ((read_at (writec_at (fresh []) 5 89).2 3 [] 1).1 = 1 ∧
      (read_at (writec_at (fresh []) 5 89).2 3 [] 1).2.1.head? = some 0 ∧
      (io300_close (writec_at (fresh []) 5 89).2).fd.data[3]? = some 0) ∧
    ((write_at (fresh []) 5 (bytes "aaaaaaaaaa")).1 = 10 ∧
      (io300_close (write_at (fresh []) 5 (bytes "aaaaaaaaaa")).2).fd.data.length = 15) :=
  have h := zero_fill (fresh []) 5 89 (bytes "aaaaaaaaaa") [] rfl rfl (by decide) (by decide)
    (by decide)
  ⟨⟨rfl, rfl, by decide, by decide, by decide⟩, ⟨h.1.1, h.1.2.1⟩,
    h.1.2.2 3 (by decide) (by decide), ⟨h.2.1, h.2.2.2.2.1⟩⟩

/-- The scenarios of `rtest102` and `rtest103`: on the empty file, `writec` of
'Y' at 5 then a read of 6 bytes from 0 gives five zero bytes and 'Y'; `write`
of ten 'a' at 100 leaves 100 zero bytes followed by ten 'a'. -/
theorem beyond_eof_tests :
    (writec_at (fresh []) 5 89).1 = 89 ∧
    (read_at (writec_at (fresh []) 5 89).2 0 (List.replicate 9 0) 6).1 = 6 ∧
    (read_at (writec_at (fresh []) 5 89).2 0 (List.replicate 9 0) 6).2.1.take 6
      = [0, 0, 0, 0, 0, 89] ∧
    (io300_close (read_at (writec_at (fresh []) 5 89).2 0 (List.replicate 9 0) 6).2.2).fd.data
      = [0, 0, 0, 0, 0, 89] ∧
    (write_at (fresh []) 100 (List.replicate 10 97)).1 = 10 ∧
    (io300_close (write_at (fresh []) 100 (List.replicate 10 97)).2).fd.data
      = List.replicate 100 0 ++ List.replicate 10 97 := by
  decide

/-- C2 as stated fails for a write of zero bytes and for an offset beyond the
file-size limit.  On the empty file, `io300_seek(f, 5)` followed by
`io300_write(f, buf, 0)` returns 0, not an error, yet the file keeps length 0
instead of 5 + 0, and position 2 reads back as end-of-file, not as a zero
byte.  With `o = 2^44` the seek fails, `io300_writec` succeeds at offset 0,
and the file has length 1, not `o + 1`, with no zero byte in it. -/
theorem zero_fill_counterexample :
    (write_at (fresh []) 5 []).1 = 0 ∧
    (io300_close (write_at (fresh []) 5 []).2).fd.data.length = 0 ∧
    (io300_close (write_at (fresh []) 5 []).2).fd.data.length ≠ 5 + 0 ∧
    (read_at (write_at (fresh []) 5 []).2 2 [7] 1).1 = 0 ∧
    (read_at (write_at (fresh []) 5 []).2 2 [7] 1).2.1 = [7] ∧
    (io300_seek (fresh []) 17592186044416).1 = -1 ∧
    (writec_at (fresh []) 17592186044416 89).1 = 89 ∧
    (io300_close (writec_at (fresh []) 17592186044416 89).2).fd.data = [89] := by
  decide

/-! ### C3 -/

/-- One call within the limits of the backend, on a read-write descriptor
without I/O errors, does to the bytes and the offset of the backend file what
it does to the logical file. -/
theorem run_call_sim (f : io300_file) (c : Call)
    (hw : f.fd.writable = true) (hf : f.fd.faults = [])
    (hfit : c.fits f.fd.maxbytes ⟨f.fd.data, f.fd.off⟩ = true) :
    (run_call f c).fd.writable = true ∧ (run_call f c).fd.faults = [] ∧
    (run_call f c).fd.maxbytes = f.fd.maxbytes ∧
    (⟨(run_call f c).fd.data, (run_call f c).fd.off⟩ : Logical) =
      Logical.step ⟨f.fd.data, f.fd.off⟩ c := by
  obtain ⟨⟨data, off, w, faults, nr, nw, nl, nc, mx⟩, cache, desc, ⟨rc, wc, sk⟩⟩ := f
  simp only at hw hf hfit
  subst hw hf
  cases c with
  | seek pos =>
    simp only [Call.fits, decide_eq_true_eq] at hfit
    by_cases hp : pos < 0
    · simp [run_call, Logical.step, seek_fail _ _ _ _ _ _ _ _ _ _ _ _ _ pos (Or.inl hp), hp]
    · obtain ⟨n, rfl⟩ := Int.eq_ofNat_of_zero_le (Int.not_lt.mp hp)
      have hn : n ≤ mx := by omega
      simp [run_call, Logical.step, seek_ok _ _ _ _ _ _ _ _ _ _ _ _ _ _ hn, hp]
  | readc =>
    by_cases h : off < data.length
    · have hc : data[off]? = some data[off] := List.getElem?_eq_getElem h
      simp [run_call, Logical.step, readc_ok _ _ _ hc, h]
    · simp [run_call, Logical.step, readc_eof _ _ (Nat.le_of_not_lt h), h]
  | writec ch =>
    simp only [Call.fits, decide_eq_true_eq] at hfit
    simp [run_call, Logical.step, writec_ok _ _ _ _ _ _ _ _ _ _ _ hfit, put_byte_eq_store]
  | read buff sz =>
    simp only [Call.fits, decide_eq_true_eq] at hfit
    simp [run_call, Logical.step, read_ok _ _ _ _ _ _ _ _ _ _ _ _ _ hfit]
  | write buff sz =>
    simp only [Call.fits, decide_eq_true_eq] at hfit
    by_cases hb : buff.take sz = []
    · simp only [run_call, Logical.step, write_nil buff sz hb, hb, put_bytes]
      simp
    · simp only [run_call, Logical.step, write_ok buff sz hb _ _ _ _ _ _ _ _ _ _ hfit.1 hfit.2,
        put_bytes_eq_store _ _ _ hb]
      simp

/-- C3, as the code and the backend have it (no buffered data is lost on
close): on a file opened read-write whose backend reports no error, after any
sequence of calls (`io300_seek`, `io300_writec`, `io300_write`, and also
`io300_readc`, `io300_read`) that stays within the limits of the backend (no
seek beyond the file-size limit, no write that ends beyond it, no read or write
of more than 0x7ffff000 bytes) followed by `io300_close`, the bytes of the
backend file are the contents obtained by applying the writes in order, each
at the logical position it was issued at, to the contents the file had
before. -/
theorem close_keeps_writes (f : io300_file) (calls : List Call)
    (hw : f.fd.writable = true) (hf : f.fd.faults = [])
    (hfit : calls_fit f.fd.maxbytes ⟨f.fd.data, f.fd.off⟩ calls = true) :
    (io300_close (run_calls f calls)).fd.data =
      (Logical.run ⟨f.fd.data, f.fd.off⟩ calls).contents := by
  rw [close_data]
  induction calls generalizing f with
  | nil => rfl
  | cons c rest ih =>
    simp only [calls_fit, Bool.and_eq_true] at hfit
    obtain ⟨h1, h2, h3, h4⟩ := run_call_sim f c hw hf hfit.1
    simp only [run_calls, Logical.run, List.foldl_cons] at ih ⊢
    rw [ih (run_call f c) h1 h2 (by rw [h3, h4]; exact hfit.2), h4]

/-- Witness of C3 (`rtest003`): on the empty file, `writec` of 0x00, 0x01,
0x03 and `close` leave those three bytes in the file. -/
theorem close_keeps_writes_witness :
    ((fresh []).fd.writable = true ∧ (fresh []).fd.faults = [] ∧
      calls_fit (fresh []).fd.maxbytes ⟨(fresh []).fd.data, (fresh []).fd.off⟩
        [Call.writec 0, Call.writec 1, Call.writec 3] = true) ∧
    (io300_close (run_calls (fresh []) [Call.writec 0, Call.writec 1, Call.writec 3])).fd.data =
      [0, 1, 3] :=
  ⟨⟨rfl, rfl, by decide⟩,
    close_keeps_writes (fresh []) [Call.writec 0, Call.writec 1, Call.writec 3] rfl rfl
      (by decide)⟩

/-- On a fresh empty file one write of 0x7ffff000 bytes or more stores
0x7ffff000 bytes, while the logical file holds all of them. -/
theorem write_loses_tail (b : List Byte) (sz : Nat) (hb : MAX_RW_COUNT ≤ b.length)
    (hsz : b.length ≤ sz) :
    (io300_close (run_calls (fresh []) [Call.write b sz])).fd.data.length = MAX_RW_COUNT ∧
    (Logical.run ⟨[], 0⟩ [Call.write b sz]).contents.length = b.length := by
  have htake : b.take sz = b := List.take_of_length_le hsz
  have hcap : 0 < MAX_RW_COUNT := by decide
  have hne : b.take sz ≠ [] := by
    rw [htake]
    exact List.ne_nil_of_length_pos (by omega)
  have hmx : MAX_RW_COUNT ≤ EXT4_MAXBYTES := by decide
  constructor
  · rw [close_data]
    simp only [run_calls, List.foldl_cons, List.foldl_nil, run_call, fresh,
      write_gen b sz hne _ _ _ _ _ _ _ _ _ _ (show 0 < EXT4_MAXBYTES by decide), htake,
      store_length, List.length_take, List.length_nil]
    omega
  · have hne2 : b ≠ [] := by rwa [htake] at hne
    simp only [Logical.run, List.foldl_cons, List.foldl_nil, Logical.step, htake,
      put_bytes_eq_store _ _ _ hne2, store_length, List.length_nil]
    omega

/-- The logical file after a seek to `o` and one `writec` has `o + 1` bytes. -/
theorem logical_seek_writec (o : Nat) (ch : Int) :
    (Logical.run ⟨[], 0⟩ [Call.seek (o : Int), Call.writec ch]).contents.length = o + 1 := by
  have h0 : ¬ ((o : Int) < 0) := by omega
  simp only [Logical.run, List.foldl_cons, List.foldl_nil, Logical.step, h0, if_false,
    put_byte, List.length_set, List.length_append, List.length_replicate, List.length_nil,
    Int.toNat_ofNat]
  omega

/-- C3 as stated fails for a write of more than 0x7ffff000 bytes and for a
seek beyond the file-size limit.  On a fresh empty file, after one
`io300_write` of 2^31 bytes and `io300_close` the file has 0x7ffff000 bytes,
while the contents the write describes have 2^31; after `io300_seek(f, 2^44)`,
`io300_writec(f, 'Y')` and `io300_close` the file is the one byte 'Y', while
the contents the calls describe have `2^44 + 1` bytes. -/
theorem close_keeps_writes_counterexample :
    (io300_close (run_calls (fresh [])
      [Call.write (List.replicate 2147483648 0) 2147483648])).fd.data.length = 2147479552 ∧
    (Logical.run ⟨[], 0⟩
      [Call.write (List.replicate 2147483648 0) 2147483648]).contents.length = 2147483648 ∧
    (io300_close (run_calls (fresh [])
      [Call.seek ((17592186044416 : Nat) : Int), Call.writec 89])).fd.data = [89] ∧
    (Logical.run ⟨[], 0⟩
      [Call.seek ((17592186044416 : Nat) : Int), Call.writec 89]).contents.length
        = 17592186044417 :=
  have h := write_loses_tail (List.replicate 2147483648 0) 2147483648
    (by rw [List.length_replicate]; decide) (by rw [List.length_replicate])
  ⟨h.1, h.2.trans (List.length_replicate _ _), by decide,
    logical_seek_writec 17592186044416 89⟩

/-! ### C4 -/

/-- What the calls return and do to the descriptor depends on the descriptor
only. -/
theorem read_fd (f g : io300_file) (h : f.fd = g.fd) (b : List Byte) (n : Nat) :
    (io300_read f b n).1 = (io300_read g b n).1 ∧
    (io300_read f b n).2.1 = (io300_read g b n).2.1 ∧
    (io300_read f b n).2.2.fd = (io300_read g b n).2.2.fd := by
  simp only [io300_read, h, and_self]

theorem write_fd (f g : io300_file) (h : f.fd = g.fd) (b : List Byte) (n : Nat) :
    (io300_write f b n).1 = (io300_write g b n).1 ∧
    (io300_write f b n).2.fd = (io300_write g b n).2.fd := by
  simp only [io300_write, h, and_self]

theorem seek_fd (f g : io300_file) (h : f.fd = g.fd) (pos : Int) :
    (io300_seek f pos).2.fd = (io300_seek g pos).2.fd := by
  simp only [io300_seek, h]

theorem readc_fd (f g : io300_file) (h : f.fd = g.fd) :
    (io300_readc f).1 = (io300_readc g).1 ∧ (io300_readc f).2.fd = (io300_readc g).2.fd := by
  unfold io300_readc
  simp only [h]
  split
  · split <;> exact ⟨rfl, rfl⟩
  · exact ⟨rfl, rfl⟩

theorem rtest100_fd (f g : io300_file) (h : f.fd = g.fd) : rtest100 f = rtest100 g := by
  unfold rtest100
  dsimp only
  obtain ⟨a1, a2, a3⟩ := read_fd f g h (List.replicate 5 0) 5
  obtain ⟨b1, b2⟩ := write_fd _ _ a3 (bytes "aaa") 3
  obtain ⟨c1, c2, c3⟩ := read_fd _ _ b2 (io300_read g (List.replicate 5 0) 5).2.1 2
  have d1 := seek_fd _ _ c3 12
  obtain ⟨e1, e2⟩ := write_fd _ _ d1 (bytes "aaa") 3
  obtain ⟨f1, f2⟩ := readc_fd _ _ e2
  rw [a2, a1, b1, c1, e1, f1, close_data, close_data, f2]

theorem open_flags_rdwr (cfg : Config) (hcfg : cfg.wf) :
    open_flags cfg (MODE_RDWR cfg) = some [OFlag.O_RDWR, OFlag.O_CREAT, OFlag.O_SYNC] := by
  obtain ⟨_, h2, h3, _⟩ := hcfg
  simp [open_flags, MODE_RDWR, Ne.symm h2, Ne.symm h3]

/-- The test helper returns a read-write file at offset 0 that holds the given
bytes, with all counters at zero. -/
theorem create_file_from_bytes_eq (cfg : Config) (hcfg : cfg.wf) (path : String)
    (s : List Byte) :
    create_file_from_bytes cfg path s =
      some ⟨⟨s, 0, true, [], 0, 0, 0, 0, EXT4_MAXBYTES⟩, cfg.CACHE_SIZE, path, ⟨0, 0, 0⟩⟩ := by
  simp [create_file_from_bytes, io300_open, open_flags_rdwr cfg hcfg, sys_open, OpenEnv.plain]

/-- The file `fresh s` is the one the test helper returns under the
configuration of the unit tests. -/
theorem fresh_eq (s : List Byte) :
    create_file_from_bytes cfg8 "/tmp/testfile" s = some (fresh s) :=
  create_file_from_bytes_eq cfg8 (by decide) "/tmp/testfile" s

/-- C4 (worksheet scenario, `rtest100`): on a file containing "this is a test"
opened read-write, `io300_read` of 5 bytes returns 5 and delivers "this ",
`io300_write` of "aaa" returns 3, `io300_read` of 2 bytes returns 2, after
`io300_seek(f, 12)` the `io300_write` of "aaa" returns 3, the next
`io300_readc` returns -1, and after `io300_close` the file is
"this aaaa teaaa". -/
theorem worksheet (cfg : Config) (hcfg : cfg.wf) :
    (create_file_from_bytes cfg "/tmp/testfile" (bytes "this is a test")).map rtest100 =
      some ⟨5, bytes "this ", 3, 2, 3, -1, bytes "this aaaa teaaa"⟩ := by
  rw [create_file_from_bytes_eq cfg hcfg, Option.map_some',
    rtest100_fd
      ⟨⟨bytes "this is a test", 0, true, [], 0, 0, 0, 0, EXT4_MAXBYTES⟩, cfg.CACHE_SIZE,
        "/tmp/testfile", ⟨0, 0, 0⟩⟩
      (fresh (bytes "this is a test")) rfl]
  decide

/-- Witness of C4: the scenario under the configuration of the unit tests. -/
theorem worksheet_witness :
    cfg8.wf ∧
    (create_file_from_bytes cfg8 "/tmp/testfile" (bytes "this is a test")).map rtest100 =
      some ⟨5, bytes "this ", 3, 2, 3, -1, bytes "this aaaa teaaa"⟩ :=
  ⟨by decide, worksheet cfg8 (by decide)⟩

/-! ### C6 -/

/-- The file after `k` calls of `io300_readc` from offset 0. -/
theorem readc_times_eq (data : List Byte) (w : Bool) (nr nw nl nc mx cache : Nat)
    (desc : String) (st : io300_statistics) (k : Nat) :
    readc_times ⟨⟨data, 0, w, [], nr, nw, nl, nc, mx⟩, cache, desc, st⟩ k =
      ⟨⟨data, min k data.length, w, [], nr + k, nw, nl, nc, mx⟩, cache, desc, st⟩ := by
  induction k with
  | zero => simp [readc_times]
  | succ k ih =>
    simp only [readc_times, ih]
    by_cases h : k < data.length
    · have hc : data[min k data.length]? = some data[k] := by
        rw [Nat.min_eq_left (Nat.le_of_lt h)]
        exact List.getElem?_eq_getElem h
      rw [readc_ok _ _ _ hc]
      have e1 : min k data.length + 1 = min (k + 1) data.length := by omega
      simp only [e1, Nat.add_assoc]
    · have hl : data.length ≤ min k data.length := by omega
      rw [readc_eof _ _ hl]
      have e1 : min k data.length = min (k + 1) data.length := by omega
      simp only [← e1, Nat.add_assoc]

/-- C6 (sequential byte reads): on a file with contents `s` of length `L` at
position 0 whose backend reports no error, the `k`-th call of `io300_readc`
(counting from 0) happens at position `min k L`; when `k < L` it returns the
value of the byte `s[k]` and advances the position by exactly 1; when `k >= L`
it returns -1, the end-of-file indicator, and leaves the position at `L`; and
`io300_close` after the calls leaves the contents of the file equal to `s`. -/
theorem readc_sequence (f : io300_file) (k : Nat)
    (h0 : f.fd.off = 0) (hf : f.fd.faults = []) :
    (readc_times f k).fd.off = min k f.fd.data.length ∧
    (∀ c : Byte, f.fd.data[k]? = some c →
      (io300_readc (readc_times f k)).1 = (c.val : Int) ∧
      (io300_readc (readc_times f k)).2.fd.off = (readc_times f k).fd.off + 1) ∧
    (f.fd.data.length ≤ k →
      (io300_readc (readc_times f k)).1 = -1 ∧
      (io300_readc (readc_times f k)).2.fd.off = f.fd.data.length) ∧
    (io300_close (readc_times f (k + 1))).fd.data = f.fd.data := by
  obtain ⟨⟨data, off, w, faults, nr, nw, nl, nc, mx⟩, cache, desc, st⟩ := f
  simp only at h0 hf
  subst h0 hf
  simp only [close_data, readc_times_eq, true_and]
  refine ⟨?_, ?_, trivial⟩
  · intro c hc
    have hk : k < data.length := (List.getElem?_eq_some_iff.mp hc).1
    have hc2 : data[min k data.length]? = some c := by
      rw [Nat.min_eq_left (Nat.le_of_lt hk)]; exact hc
    rw [readc_ok _ _ _ hc2]
    exact ⟨rfl, rfl⟩
  · intro hk
    have hl : data.length ≤ min k data.length := by omega
    rw [readc_eof _ _ hl]
    exact ⟨rfl, by simp only []; omega⟩

/-- Witness of C6 (`rtest001`): the first three calls on "hello world" return
'h', 'e', 'l', a call past the end returns -1, and the file is unmodified. -/
theorem readc_sequence_witness :
    ((fresh (bytes "hello world")).fd.off = 0 ∧ (fresh (bytes "hello world")).fd.faults = []) ∧
    (io300_readc (readc_times (fresh (bytes "hello world")) 0)).1 = 104 ∧
    (io300_readc (readc_times (fresh (bytes "hello world")) 1)).1 = 101 ∧
    (io300_readc (readc_times (fresh (bytes "hello world")) 2)).1 = 108 ∧
    (io300_readc (readc_times (fresh (bytes "hello world")) 11)).1 = -1 ∧
    (io300_close (readc_times (fresh (bytes "hello world")) 3)).fd.data = bytes "hello world" :=
  ⟨⟨rfl, rfl⟩,
    ((readc_sequence (fresh (bytes "hello world")) 0 rfl rfl).2.1 104 (by decide)).1,
    ((readc_sequence (fresh (bytes "hello world")) 1 rfl rfl).2.1 101 (by decide)).1,
    ((readc_sequence (fresh (bytes "hello world")) 2 rfl rfl).2.1 108 (by decide)).1,
    ((readc_sequence (fresh (bytes "hello world")) 11 rfl rfl).2.2.1 (by decide)).1,
    (readc_sequence (fresh (bytes "hello world")) 2 rfl rfl).2.2.2⟩


/-! ### C5 -/

theorem store_at_end (d b : List Byte) : store d d.length b = d ++ b := by
  simp [store]

theorem open_read_eq (cfg : Config) (path desc : String) (s : List Byte) :
    io300_open cfg (OpenEnv.plain (some s)) (some path) cfg.MODE_READ desc =
      some ⟨⟨s, 0, false, [], 0, 0, 0, 0, EXT4_MAXBYTES⟩, cfg.CACHE_SIZE, desc, ⟨0, 0, 0⟩⟩ := by
  simp [io300_open, open_flags, sys_open, OpenEnv.plain]

theorem open_write_eq (cfg : Config) (hcfg : cfg.wf) (path desc : String)
    (old : Option (List Byte)) :
    io300_open cfg (OpenEnv.plain old) (some path) cfg.MODE_WRITE desc =
      some ⟨⟨[], 0, true, [], 0, 0, 0, 0, EXT4_MAXBYTES⟩, cfg.CACHE_SIZE, desc, ⟨0, 0, 0⟩⟩ := by
  obtain ⟨h1, _, _, _⟩ := hcfg
  cases old <;> simp [io300_open, open_flags, sys_open, OpenEnv.plain, Ne.symm h1]

/-- The loop from a state in which the first `p` bytes have been copied. -/
theorem block_cat_from (s : List Byte) (k : Nat) (hk : 1 ≤ k) (mx2 : Nat)
    (hmx : s.length ≤ mx2) :
    ∀ (fuel p : Nat) (buffer : List Byte) (w : Bool) (nr nw nl nc mx cache : Nat)
      (desc : String) (st : io300_statistics) (nr2 nw2 nl2 nc2 cache2 : Nat) (desc2 : String)
      (st2 : io300_statistics),
      p ≤ s.length → s.length - p < fuel →
      ∃ i o, block_cat fuel ⟨⟨s, p, w, [], nr, nw, nl, nc, mx⟩, cache, desc, st⟩
          ⟨⟨s.take p, p, true, [], nr2, nw2, nl2, nc2, mx2⟩, cache2, desc2, st2⟩ buffer k
          = Run.done (i, o) ∧
        i.fd.data = s ∧ o.fd.data = s := by
  have hK1 : 1 ≤ min k MAX_RW_COUNT := by
    unfold MAX_RW_COUNT
    omega
  have hK2 : min k MAX_RW_COUNT ≤ MAX_RW_COUNT := Nat.min_le_right _ _
  intro fuel
  induction fuel with
  | zero => intro p _ _ _ _ _ _ _ _ _ _ _ _ _ _ _ _ _ _ h; omega
  | succ fuel ih =>
    intro p buffer w nr nw nl nc mx cache desc st nr2 nw2 nl2 nc2 cache2 desc2 st2 hp hfuel
    simp only [block_cat, read_gen]
    have hlen : ((s.drop p).take (min k MAX_RW_COUNT)).length = min (min k MAX_RW_COUNT) (s.length - p) := by
      simp only [List.length_take, List.length_drop]
    by_cases hend : p = s.length
    · subst hend
      simp only [List.drop_length, List.take_nil, List.length_nil, Nat.cast_zero, true_or,
        if_true, List.take_length]
      exact ⟨_, _, rfl, rfl, rfl⟩
    · have hpos : 0 < ((s.drop p).take (min k MAX_RW_COUNT)).length := by rw [hlen]; omega
      have hne : (s.drop p).take (min k MAX_RW_COUNT) ≠ [] := List.ne_nil_of_length_pos hpos
      have h1 : ¬ ((((s.drop p).take (min k MAX_RW_COUNT)).length : Int) = 0 ∨
          (((s.drop p).take (min k MAX_RW_COUNT)).length : Int) = -1) := by omega
      simp only [h1, if_false, Int.toNat_ofNat]
      have htk : List.take ((s.drop p).take (min k MAX_RW_COUNT)).length
          ((s.drop p).take (min k MAX_RW_COUNT) ++ List.drop ((s.drop p).take (min k MAX_RW_COUNT)).length buffer)
            = (s.drop p).take (min k MAX_RW_COUNT) := List.take_left' rfl
      have hne2 : List.take ((s.drop p).take (min k MAX_RW_COUNT)).length
          ((s.drop p).take (min k MAX_RW_COUNT) ++ List.drop ((s.drop p).take (min k MAX_RW_COUNT)).length buffer) ≠ [] := by
        rw [htk]; exact hne
      rw [write_ok _ _ hne2 _ _ _ _ _ _ _ _ _ _ (by rw [htk, hlen]; omega)
        (by rw [htk, hlen]; omega)]
      simp only [htk]
      have hw : ¬ ((((s.drop p).take (min k MAX_RW_COUNT)).length : Int) = -1) := by omega
      simp only [hw, if_false]
      have hst : store (s.take p) p ((s.drop p).take (min k MAX_RW_COUNT))
          = s.take (p + ((s.drop p).take (min k MAX_RW_COUNT)).length) := by
        have hp2 : (s.take p).length = p := by
          simp only [List.length_take]; omega
        have := store_at_end (s.take p) ((s.drop p).take (min k MAX_RW_COUNT))
        rw [hp2] at this
        rw [this, hlen, List.take_add]
        congr 1
        rw [List.take_eq_take, List.length_drop]
        omega
      rw [hst]
      apply ih
      · rw [hlen]; omega
      · rw [hlen]; omega

/-- C5, as the code and the backend have it (block copy is the identity): for
every input contents `s` (a file of the file system, so within its file-size
limit), null bytes and bytes >= 0x80 included, every block size `k >= 1` and
whatever the output path held before, the block cat loop of `rtest101` (input
opened with MODE_READ, output with MODE_WRITE) followed by `io300_close` of
both files terminates, within `length s + 1` iterations, and leaves the output
file equal to `s` byte for byte, the input file unchanged; and every
`io300_read` on a file whose backend reports no error returns the smallest of
`k`, 0x7ffff000 and the number of bytes that remain, which is the smaller of
`k` and the number of bytes that remain when `k <= 0x7ffff000`. -/
theorem block_copy (cfg : Config) (hcfg : cfg.wf) (k : Nat) (hk : 1 ≤ k) (s : List Byte)
    (hs : s.length ≤ EXT4_MAXBYTES) (old : Option (List Byte)) (buffer : List Byte)
    (fuel : Nat) (hfuel : s.length < fuel) :
    (∃ i o, rtest101 cfg fuel k s old buffer = Run.done (i, o) ∧
      o.fd.data = s ∧ i.fd.data = s) ∧
    (∀ (f : io300_file) (buff : List Byte), f.fd.faults = [] →
      (io300_read f buff k).1
        = (min (min k MAX_RW_COUNT) (f.fd.data.length - f.fd.off) : Nat) ∧
      (k ≤ MAX_RW_COUNT →
        (io300_read f buff k).1 = (min k (f.fd.data.length - f.fd.off) : Nat))) := by
  constructor
  · obtain ⟨i, o, h, hi, ho⟩ := block_cat_from s k hk EXT4_MAXBYTES hs fuel 0 buffer false
      0 0 0 0 EXT4_MAXBYTES cfg.CACHE_SIZE "in" ⟨0, 0, 0⟩ 0 0 0 0 cfg.CACHE_SIZE "out"
      ⟨0, 0, 0⟩ (Nat.zero_le _) (by omega)
    refine ⟨io300_close i, io300_close o, ?_, ?_, ?_⟩
    · simp only [rtest101, open_read_eq, open_write_eq cfg hcfg]
      simp only [List.take_zero] at h
      rw [h]
    · rw [close_data, ho]
    · rw [close_data, hi]
  · intro f buff hf
    obtain ⟨⟨data, off, w, faults, nr, nw, nl, nc, mx⟩, cache, desc, st⟩ := f
    simp only at hf
    subst hf
    simp only [read_gen, List.length_take, List.length_drop, true_and]
    intro hcap
    rw [Nat.min_eq_left hcap]

/-- Witness of C5: the 17-byte block copy of 20 bytes with embedded null bytes
and bytes >= 0x80, over an output path that held other bytes. -/
theorem block_copy_witness :
    (cfg8.wf ∧ 1 ≤ 17 ∧
      ([77, 97, 107, 101, 0, 115, 117, 114, 101, 0, 234, 176, 128, 32, 224, 164, 170, 0, 39,
        110] : List Byte).length ≤ EXT4_MAXBYTES ∧
      ([77, 97, 107, 101, 0, 115, 117, 114, 101, 0, 234, 176, 128, 32, 224, 164, 170, 0, 39,
        110] : List Byte).length < 21) ∧
    (∃ i o, rtest101 cfg8 21 17
        [77, 97, 107, 101, 0, 115, 117, 114, 101, 0, 234, 176, 128, 32, 224, 164, 170, 0, 39, 110]
        (some [1, 2, 3]) (List.replicate 20 0) = Run.done (i, o) ∧
      o.fd.data =
        [77, 97, 107, 101, 0, 115, 117, 114, 101, 0, 234, 176, 128, 32, 224, 164, 170, 0, 39,
          110] ∧
      i.fd.data =
        [77, 97, 107, 101, 0, 115, 117, 114, 101, 0, 234, 176, 128, 32, 224, 164, 170, 0, 39,
          110]) ∧
    (io300_read (fresh [77, 97, 107, 101, 0]) [] 17).1 = 5 :=
  have h := block_copy cfg8 (by decide) 17 (by decide)
    [77, 97, 107, 101, 0, 115, 117, 114, 101, 0, 234, 176, 128, 32, 224, 164, 170, 0, 39, 110]
    (by decide) (some [1, 2, 3]) (List.replicate 20 0) 21 (by decide)
  ⟨⟨by decide, by decide, by decide, by decide⟩, h.1,
    (h.2 (fresh [77, 97, 107, 101, 0]) [] rfl).1⟩

/-- On a file whose backend reports no error and that has 0x7ffff000 bytes or
more left, a read of 0x7ffff000 bytes or more returns 0x7ffff000. -/
theorem read_short (s buff : List Byte) (k : Nat) (hs : MAX_RW_COUNT ≤ s.length)
    (hk : MAX_RW_COUNT ≤ k) :
    (io300_read (fresh s) buff k).1 = (MAX_RW_COUNT : Int) := by
  unfold fresh
  simp only [read_gen, List.length_take, List.length_drop]
  congr 1
  omega

/-- C5 as stated fails for a block size above 0x7ffff000: on a file of 2^31
bytes at offset 0, `io300_read(f, buf, 2^31)` returns 0x7ffff000, neither the
block size nor the number of bytes that remain, which are both 2^31. -/
theorem block_copy_counterexample :
    (List.replicate 2147483648 (0 : Byte)).length = 2147483648 ∧
    (fresh (List.replicate 2147483648 0)).fd.off = 0 ∧
    (io300_read (fresh (List.replicate 2147483648 0)) [] 2147483648).1 = 2147479552 :=
  ⟨List.length_replicate _ _, rfl,
    read_short (List.replicate 2147483648 0) [] 2147483648
      (by rw [List.length_replicate]; decide) (by decide)⟩


/-! ### C7 -/

theorem readc_nread (f : io300_file) : (io300_readc f).2.fd.nread = f.fd.nread + 1 := by
  unfold io300_readc sys_read
  dsimp only
  split <;> split <;> try split
  all_goals rfl

theorem read_nread (f : io300_file) (buff : List Byte) (sz : Nat) :
    (io300_read f buff sz).2.2.fd.nread = f.fd.nread + 1 := by
  unfold io300_read sys_read
  dsimp only
  split <;> rfl

theorem readc_times_nread (f : io300_file) (n : Nat) :
    (readc_times f n).fd.nread = f.fd.nread + n := by
  induction n with
  | zero => rfl
  | succ n ih => rw [readc_times, readc_nread, ih, Nat.add_assoc]

theorem read_sizes_nread (sizes : List Nat) :
    ∀ (f : io300_file) (buff : List Byte),
      (read_sizes f buff sizes).fd.nread = f.fd.nread + sizes.length := by
  induction sizes with
  | nil => intro f buff; rfl
  | cons sz rest ih =>
    intro f buff
    rw [read_sizes, ih, read_nread, List.length_cons]
    omega

theorem length_mul_le_sum (c : Nat) (sizes : List Nat) (h : ∀ sz ∈ sizes, c ≤ sz) :
    sizes.length * c ≤ sizes.sum := by
  induction sizes with
  | nil => simp
  | cons a rest ih =>
    have h1 : c ≤ a := h a (List.mem_cons_self a rest)
    have h2 := ih fun sz hsz => h sz (List.mem_cons_of_mem a hsz)
    simp only [List.length_cons, List.sum_cons, Nat.add_mul, Nat.one_mul]
    omega

/-- C7, as the code has it: reads are not batched.  Whatever the file and
`CACHE_SIZE = C`, `N` calls of `io300_readc` issue exactly `N` backend `read`
calls, and `io300_read` calls issue exactly one backend `read` call each; the
bound `ceil(N / C)` on the backend `read` calls holds for `io300_read` calls
that request at least `C` bytes each and `N` bytes in total. -/
theorem reads_one_per_call (f : io300_file) (buff : List Byte) (n c : Nat)
    (sizes : List Nat) :
    (readc_times f n).fd.nread = f.fd.nread + n ∧
    (read_sizes f buff sizes).fd.nread = f.fd.nread + sizes.length ∧
    (0 < c → (∀ sz ∈ sizes, c ≤ sz) →
      (read_sizes f buff sizes).fd.nread - f.fd.nread ≤ (sizes.sum + c - 1) / c) := by
  refine ⟨readc_times_nread f n, read_sizes_nread sizes f buff, ?_⟩
  intro hc hsz
  rw [read_sizes_nread, Nat.add_sub_cancel_left, Nat.le_div_iff_mul_le hc]
  have := length_mul_le_sum c sizes hsz
  omega

/-- Witness of C7 as amended: two reads of 8 bytes on a 16-byte file with
`CACHE_SIZE` 8 issue two backend reads, which is `ceil(16 / 8)`. -/
theorem reads_one_per_call_witness :
    (0 < 8 ∧ ∀ sz ∈ [8, 8], 8 ≤ sz) ∧
    (read_sizes (fresh (bytes "0123456789abcdef")) [] [8, 8]).fd.nread
      - (fresh (bytes "0123456789abcdef")).fd.nread ≤ ([8, 8].sum + 8 - 1) / 8 :=
  ⟨⟨by decide, by decide⟩,
    (reads_one_per_call (fresh (bytes "0123456789abcdef")) [] 0 8 [8, 8]).2.2
      (by decide) (by decide)⟩

/-- C7 as stated fails: with `CACHE_SIZE` 8, reading the 2 bytes of "ab"
sequentially from position 0 issues 2 backend `read` calls, by two
`io300_readc` calls as well as by two `io300_read` calls of one byte, while
`ceil(2 / 8)` is 1. -/
theorem reads_batched_counterexample :
    cfg8.CACHE_SIZE = 8 ∧
    (readc_times (fresh (bytes "ab")) 2).fd.nread = 2 ∧
    (read_sizes (fresh (bytes "ab")) [0, 0] [1, 1]).fd.nread = 2 ∧
    (readc_times (fresh (bytes "ab")) 2).fd.off = 2 ∧
    (read_sizes (fresh (bytes "ab")) [0, 0] [1, 1]).fd.off = 2 ∧
    (2 + cfg8.CACHE_SIZE - 1) / cfg8.CACHE_SIZE = 1 ∧
    ¬ ((readc_times (fresh (bytes "ab")) 2).fd.nread
        ≤ (2 + cfg8.CACHE_SIZE - 1) / cfg8.CACHE_SIZE) ∧
    ¬ ((read_sizes (fresh (bytes "ab")) [0, 0] [1, 1]).fd.nread
        ≤ (2 + cfg8.CACHE_SIZE - 1) / cfg8.CACHE_SIZE) := by
  decide


/-! ### C8 -/

theorem seek_nlseek (f : io300_file) (pos : Int) :
    (io300_seek f pos).2.fd.nlseek = f.fd.nlseek + 1 := by
  unfold io300_seek sys_lseek
  dsimp only
  split <;> rfl

theorem readc_nlseek (f : io300_file) : (io300_readc f).2.fd.nlseek = f.fd.nlseek := by
  unfold io300_readc sys_read
  dsimp only
  split <;> split <;> try split
  all_goals rfl

theorem sys_write_nlseek (k : Backend) (buf : List Byte) :
    (sys_write k buf).2.nlseek = k.nlseek := by
  unfold sys_write
  dsimp only
  split
  · rfl
  · split
    · rfl
    · split <;> rfl

theorem writec_nlseek (f : io300_file) (ch : Int) :
    (io300_writec f ch).2.fd.nlseek = f.fd.nlseek := by
  unfold io300_writec
  dsimp only
  split <;> exact sys_write_nlseek _ _

theorem read_nlseek (f : io300_file) (buff : List Byte) (sz : Nat) :
    (io300_read f buff sz).2.2.fd.nlseek = f.fd.nlseek := by
  unfold io300_read sys_read
  dsimp only
  split <;> rfl

theorem write_nlseek (f : io300_file) (buff : List Byte) (sz : Nat) :
    (io300_write f buff sz).2.fd.nlseek = f.fd.nlseek := by
  unfold io300_write
  exact sys_write_nlseek _ _

theorem run_call_nlseek (f : io300_file) (c : Call) :
    (run_call f c).fd.nlseek = f.fd.nlseek + count_seeks [c] := by
  cases c with
  | seek pos => simp [run_call, seek_nlseek, count_seeks]
  | readc => simp [run_call, readc_nlseek, count_seeks]
  | writec ch => simp [run_call, writec_nlseek, count_seeks]
  | read buff sz => simp [run_call, read_nlseek, count_seeks]
  | write buff sz => simp [run_call, write_nlseek, count_seeks]

/-- C8, as the code has it: a seek is not a pure update of a logical position.
Every `io300_seek` issues exactly one backend `lseek` call, wherever the target
lies, and `io300_readc`, `io300_writec`, `io300_read` and `io300_write` issue
none: a sequence of calls issues as many backend `lseek` calls as it contains
`io300_seek` calls. -/
theorem seeks_one_per_call (f : io300_file) (calls : List Call) :
    (run_calls f calls).fd.nlseek = f.fd.nlseek + count_seeks calls := by
  induction calls generalizing f with
  | nil => rfl
  | cons c rest ih =>
    simp only [run_calls, List.foldl_cons] at ih ⊢
    rw [ih, run_call_nlseek]
    simp only [count_seeks, List.countP_cons, List.countP_nil]
    omega

/-- C8 as stated fails: with `CACHE_SIZE` 8, on a file of 8 bytes, after an
`io300_readc` at position 0 (the window of 8 bytes a cache would hold),
`io300_seek(f, 3)` issues one backend `lseek`, and the sequence seek 3, readc,
seek 1, writec, seek 7, all inside that window, issues three. -/
theorem seek_in_window_counterexample :
    cfg8.CACHE_SIZE = 8 ∧
    (io300_readc (fresh (bytes "abcdefgh"))).2.fd.nlseek = 0 ∧
    (io300_seek (io300_readc (fresh (bytes "abcdefgh"))).2 3).2.fd.nlseek = 1 ∧
    (run_calls (io300_readc (fresh (bytes "abcdefgh"))).2
      [Call.seek 3, Call.readc, Call.seek 1, Call.writec 120, Call.seek 7]).fd.nlseek = 3 := by
  decide

/-! ### C9 -/

/-- C9 fails on the code: after `io300_readc` on a file holding "a" one backend
`read` has been issued and `stats.read_calls` is 0; the same holds for
`io300_read`, and for `io300_writec` and `io300_write` with `stats.write_calls`;
only `io300_seek` counts its backend call. -/
theorem stats_not_exact :
    ((io300_readc (fresh (bytes "a"))).2.fd.nread = 1 ∧
      (io300_readc (fresh (bytes "a"))).2.stats.read_calls = 0) ∧
    ((io300_read (fresh (bytes "a")) [0] 1).2.2.fd.nread = 1 ∧
      (io300_read (fresh (bytes "a")) [0] 1).2.2.stats.read_calls = 0) ∧
    ((io300_writec (fresh (bytes "a")) 98).2.fd.nwrite = 1 ∧
      (io300_writec (fresh (bytes "a")) 98).2.stats.write_calls = 0) ∧
    ((io300_write (fresh (bytes "a")) (bytes "b") 1).2.fd.nwrite = 1 ∧
      (io300_write (fresh (bytes "a")) (bytes "b") 1).2.stats.write_calls = 0) ∧
    ((io300_seek (fresh (bytes "a")) 0).2.fd.nlseek = 1 ∧
      (io300_seek (fresh (bytes "a")) 0).2.stats.seeks = 1) := by
  decide

/-! ### C10 -/

/-- C10 (`io300_open`): the result is NULL when `path` is NULL, when `mode` is
none of MODE_READ, MODE_WRITE, MODE_READ|MODE_WRITE, and when the backend
`open` (called with the flags of the mode) fails; each of the three modes has
flags; and when the path is not NULL, the mode has flags, the backend `open`
returns a descriptor and both allocations succeed, the result is a file that
holds that descriptor, with `read_calls`, `write_calls` and `seeks` all 0, on
which no backend `read` and no backend `lseek` has been issued. -/
theorem open_contract (cfg : Config) (env : OpenEnv) (path : Option String) (mode : Int)
    (description : String) :
    (path = none → io300_open cfg env path mode description = none) ∧
    (mode ≠ cfg.MODE_READ → mode ≠ cfg.MODE_WRITE →
      mode ≠ Int.lor cfg.MODE_READ cfg.MODE_WRITE →
      io300_open cfg env path mode description = none) ∧
    (∀ flags, open_flags cfg mode = some flags → sys_open env flags = none →
      io300_open cfg env path mode description = none) ∧
    (mode = cfg.MODE_READ ∨ mode = cfg.MODE_WRITE ∨
      mode = Int.lor cfg.MODE_READ cfg.MODE_WRITE → (open_flags cfg mode).isSome = true) ∧
    (∀ p flags k, path = some p → open_flags cfg mode = some flags →
      sys_open env flags = some k → env.malloc_file = true → env.malloc_cache = true →
      io300_open cfg env path mode description
        = some ⟨k, cfg.CACHE_SIZE, description, ⟨0, 0, 0⟩⟩ ∧
      k.nread = 0 ∧ k.nlseek = 0) := by
  refine ⟨?_, ?_, ?_, ?_, ?_⟩
  · intro h
    subst h
    rfl
  · intro h1 h2 h3
    cases path <;> simp [io300_open, open_flags, h1, h2, h3]
  · intro flags h1 h2
    cases path <;> simp [io300_open, h1, h2]
  · intro h
    unfold open_flags
    dsimp only
    split_ifs with a b c
    · rfl
    · rfl
    · rfl
    · rcases h with h | h | h <;> contradiction
  · intro p flags k hp h1 h2 h3 h4
    subst hp
    refine ⟨by simp [io300_open, h1, h2, h3, h4], ?_, ?_⟩
    · unfold sys_open at h2
      split at h2
      · exact absurd h2 (by simp)
      · split at h2
        · split at h2
          · injection h2 with h2; subst h2; rfl
          · exact absurd h2 (by simp)
        · injection h2 with h2; subst h2; rfl
    · unfold sys_open at h2
      split at h2
      · exact absurd h2 (by simp)
      · split at h2
        · split at h2
          · injection h2 with h2; subst h2; rfl
          · exact absurd h2 (by simp)
        · injection h2 with h2; subst h2; rfl

/-- Witness of C10: opening an existing file read-write under the
configuration of the unit tests, where MODE_READ|MODE_WRITE is 3. -/
theorem open_contract_witness :
    (open_flags cfg8 3 = some [OFlag.O_RDWR, OFlag.O_CREAT, OFlag.O_SYNC] ∧
      sys_open (OpenEnv.plain (some (bytes "abc"))) [OFlag.O_RDWR, OFlag.O_CREAT, OFlag.O_SYNC]
        = some ⟨bytes "abc", 0, true, [], 0, 0, 0, 0, EXT4_MAXBYTES⟩ ∧
      (OpenEnv.plain (some (bytes "abc"))).malloc_file = true ∧
      (OpenEnv.plain (some (bytes "abc"))).malloc_cache = true) ∧
    (io300_open cfg8 (OpenEnv.plain (some (bytes "abc"))) (some "/tmp/testfile") 3
        "/tmp/testfile"
      = some ⟨⟨bytes "abc", 0, true, [], 0, 0, 0, 0, EXT4_MAXBYTES⟩, 8, "/tmp/testfile", ⟨0, 0, 0⟩⟩ ∧
      (⟨bytes "abc", 0, true, [], 0, 0, 0, 0, EXT4_MAXBYTES⟩ : Backend).nread = 0 ∧
      (⟨bytes "abc", 0, true, [], 0, 0, 0, 0, EXT4_MAXBYTES⟩ : Backend).nlseek = 0) :=
  ⟨⟨by decide, by decide, rfl, rfl⟩,
    (open_contract cfg8 (OpenEnv.plain (some (bytes "abc"))) (some "/tmp/testfile") 3
      "/tmp/testfile").2.2.2.2 "/tmp/testfile" [OFlag.O_RDWR, OFlag.O_CREAT, OFlag.O_SYNC]
      ⟨bytes "abc", 0, true, [], 0, 0, 0, 0, EXT4_MAXBYTES⟩ rfl (by decide) (by decide) rfl rfl⟩

/-! ### C11 -/

theorem to_int_small (x : Int) (h1 : -2 ^ 31 ≤ x) (h2 : x < 2 ^ 31) : to_int x = x := by
  unfold to_int
  omega

/-- The part of C11 the code has: on a descriptor whose backend reports no
error, `io300_seek(f, pos)` with `0 <= pos < 2^31` within the file-size limit
returns `pos` and moves the offset to `pos`, also past end-of-file; with
`pos < 0` it returns -1 and leaves the offset where it was. -/
theorem seek_status (f : io300_file) (pos : Int) (hf : f.fd.faults = []) :
    (0 ≤ pos → pos < 2 ^ 31 → pos ≤ f.fd.maxbytes →
      (io300_seek f pos).1 = pos ∧ (io300_seek f pos).2.fd.off = pos.toNat) ∧
    (0 ≤ pos → pos ≤ f.fd.maxbytes → (io300_seek f pos).2.fd.off = pos.toNat) ∧
    (pos < 0 → (io300_seek f pos).1 = -1 ∧ (io300_seek f pos).2.fd.off = f.fd.off) := by
  obtain ⟨⟨data, off, w, faults, nr, nw, nl, nc, mx⟩, cache, desc, ⟨rc, wc, sk⟩⟩ := f
  simp only at hf
  subst hf
  refine ⟨?_, ?_, ?_⟩
  · intro h1 h2 h3
    obtain ⟨n, rfl⟩ := Int.eq_ofNat_of_zero_le h1
    simp only at h3
    rw [seek_ok _ _ _ _ _ _ _ _ _ _ _ _ _ _ (by omega)]
    exact ⟨to_int_small _ (by omega) h2, rfl⟩
  · intro h1 h3
    obtain ⟨n, rfl⟩ := Int.eq_ofNat_of_zero_le h1
    simp only at h3
    rw [seek_ok _ _ _ _ _ _ _ _ _ _ _ _ _ _ (by omega)]
    rfl
  · intro h
    rw [seek_fail _ _ _ _ _ _ _ _ _ _ _ _ _ pos (Or.inl h)]
    exact ⟨to_int_small _ (by omega) (by omega), rfl⟩

/-- C11 fails on the code: `io300_seek(f, 2^31)` on a fresh file moves the
offset to 2^31, so that the next write acts there, and returns -2^31, a
negative status; `io300_seek(f, 2^32 - 1)` returns -1, the very value a failed
seek returns. -/
theorem seek_status_wraps :
    (io300_seek (fresh []) 2147483648).1 = -2147483648 ∧
    (io300_seek (fresh []) 2147483648).2.fd.off = 2147483648 ∧
    (io300_writec (io300_seek (fresh []) 2147483648).2 89).1 = 89 ∧
    (io300_writec (io300_seek (fresh []) 2147483648).2 89).2.fd.off = 2147483649 ∧
    (io300_seek (fresh []) 4294967295).1 = -1 ∧
    (io300_seek (fresh []) 4294967295).2.fd.off = 4294967295 ∧
    (io300_seek (fresh []) (-1)).1 = -1 := by
  decide

/-! ### C12 -/

/-- The file `failing s` is what `io300_open` returns for a descriptor whose
first backend call will fail. -/
theorem failing_eq (s : List Byte) :
    io300_open cfg8 ⟨some s, false, [true], true, true, EXT4_MAXBYTES⟩ (some "/tmp/testfile") (MODE_RDWR cfg8)
      "/tmp/testfile" = some (failing s) := by
  rfl

/-- C12, as the code has it: `io300_close` issues no flush (no backend
`write`), calls `close(fd)` exactly once, frees the cache buffer and the file
struct exactly once each, in every case, and returns 0 whatever `close(fd)`
returned. -/
theorem close_returns_zero (f : io300_file) :
    (io300_close f).ret = 0 ∧
    (io300_close f).fd.nwrite = f.fd.nwrite ∧
    (io300_close f).fd.nclose = f.fd.nclose + 1 ∧
    (io300_close f).freed.count Block.cache = 1 ∧
    (io300_close f).freed.count Block.file = 1 ∧
    (io300_close f).freed.length = 2 := by
  unfold io300_close sys_close
  dsimp only
  split <;> exact ⟨rfl, rfl, rfl, by decide, by decide, rfl⟩

/-- C12 as stated fails: on a file whose `close(fd)` fails (the backend returns
-1), `io300_close` returns 0. -/
theorem close_failure_counterexample :
    (sys_close (failing (bytes "a")).fd).1 = -1 ∧
    (io300_close (failing (bytes "a"))).ret = 0 ∧
    (io300_close (failing (bytes "a"))).fd.nclose = 1 ∧
    (io300_close (failing (bytes "a"))).freed = [Block.cache, Block.file] := by
  decide

/-! ### C13 -/

/-- C13, as the code has it: `io300_readc` returns the one value -1 both when
the backend `read` returns 0 (end-of-file) and when it returns -1 (failure);
when the backend `read` returns 1 it returns the value of the byte read, which
lies in 0..255 and so differs from -1. -/
theorem readc_values (f : io300_file) :
    ((sys_read f.fd 1).1 = 0 → (io300_readc f).1 = -1) ∧
    ((sys_read f.fd 1).1 = -1 → (io300_readc f).1 = -1) ∧
    ((sys_read f.fd 1).1 = 1 →
      (∃ c : Byte, (sys_read f.fd 1).2.1 = [c] ∧ (io300_readc f).1 = (c.val : Int)) ∧
      0 ≤ (io300_readc f).1 ∧ (io300_readc f).1 ≤ 255 ∧ (io300_readc f).1 ≠ -1) := by
  refine ⟨?_, ?_, ?_⟩
  · intro h
    simp [io300_readc, h]
  · intro h
    simp [io300_readc, h]
  · intro h
    have hl : (sys_read f.fd 1).2.1.length = 1 := by
      unfold sys_read at h ⊢
      cases hfault : f.fd.fault
      · simp only [hfault, Bool.false_eq_true, if_false] at h ⊢
        exact_mod_cast h
      · simp [hfault] at h
    obtain ⟨c, hc⟩ := List.length_eq_one.mp hl
    have hv : (io300_readc f).1 = (c.val : Int) := by
      simp [io300_readc, h, hc]
    refine ⟨⟨c, hc, hv⟩, ?_⟩
    rw [hv]
    have := c.isLt
    omega

/-- Witness of C13 as amended: a stored byte 0xFF is returned as 255. -/
theorem readc_values_witness :
    (sys_read (fresh [255]).fd 1).1 = 1 ∧
    ((∃ c : Byte, (sys_read (fresh [255]).fd 1).2.1 = [c] ∧
        (io300_readc (fresh [255])).1 = (c.val : Int)) ∧
      0 ≤ (io300_readc (fresh [255])).1 ∧ (io300_readc (fresh [255])).1 ≤ 255 ∧
      (io300_readc (fresh [255])).1 ≠ -1) ∧
    (io300_readc (fresh [255])).1 = 255 :=
  ⟨by decide, (readc_values (fresh [255])).2.2 (by decide), by decide⟩

/-- C13 as stated fails: at end-of-file (backend `read` returns 0) and on a
backend failure (backend `read` returns -1) `io300_readc` returns the same
value, -1. -/
theorem readc_eof_error_counterexample :
    (sys_read (fresh []).fd 1).1 = 0 ∧
    (io300_readc (fresh [])).1 = -1 ∧
    (sys_read (failing (bytes "a")).fd 1).1 = -1 ∧
    (io300_readc (failing (bytes "a"))).1 = -1 ∧
    (io300_readc (fresh [])).1 = (io300_readc (failing (bytes "a"))).1 := by
  decide

/-! ### C15 -/

set_option maxRecDepth 100000 in
/-- C15 (`rot13` is an involution on bytes): for every byte `ch`,
`rot13(rot13(ch)) = ch`; an upper-case ASCII letter is mapped to an upper-case
letter, a lower-case letter to a lower-case letter, and every other byte value
is returned unchanged. -/
theorem rot13_involution :
    ∀ ch : Byte,
      rot13 (rot13 ch) = ch ∧
      (65 ≤ ch.val ∧ ch.val ≤ 90 → 65 ≤ (rot13 ch).val ∧ (rot13 ch).val ≤ 90) ∧
      (97 ≤ ch.val ∧ ch.val ≤ 122 → 97 ≤ (rot13 ch).val ∧ (rot13 ch).val ≤ 122) ∧
      (¬ (65 ≤ ch.val ∧ ch.val ≤ 90) → ¬ (97 ≤ ch.val ∧ ch.val ≤ 122) → rot13 ch = ch) := by
  decide

/-! ### C14 -/

/-- A write at the end of a file that is written sequentially appends, when it
is of at most 0x7ffff000 bytes and ends within the file-size limit. -/
theorem sys_write_append (d b : List Byte) (nr nw nl nc mx : Nat)
    (hcap : b.length ≤ MAX_RW_COUNT) (hmx : d.length + b.length ≤ mx) :
    sys_write ⟨d, d.length, true, [], nr, nw, nl, nc, mx⟩ b =
      ((b.length : Int), ⟨d ++ b, (d ++ b).length, true, [], nr, nw + 1, nl, nc, mx⟩) := by
  by_cases hb : b = []
  · subst hb
    simp [sys_write, Backend.fault]
  · have hpos : 0 < b.length := List.length_pos.mpr hb
    have h1 : ¬ (mx ≤ d.length) := by omega
    have h2 : List.take (min MAX_RW_COUNT (mx - d.length)) b = b :=
      List.take_of_length_le (by omega)
    simp [sys_write, Backend.fault, hb, h1, h2, store_at_end]

/-- The blocks from offset `m * B` on, reversed, are the block at `m * B`
reversed after the later blocks reversed. -/
theorem reverse_block (s : List Byte) (B m : Nat) :
    (s.drop ((m + 1) * B)).reverse ++ ((s.drop (m * B)).take B).reverse
      = (s.drop (m * B)).reverse := by
  rw [← List.reverse_append]
  congr 1
  have h : (m + 1) * B = m * B + B := by rw [Nat.add_mul, Nat.one_mul]
  rw [h, ← List.drop_drop]
  exact List.take_append_drop B (s.drop (m * B))

/-- One iteration of the loop of `reverse.c` at an offset `i` within the
file-size limit, with an output descriptor that is written sequentially and
has room for the block: the block read is cut at 0x7ffff000 bytes. -/
theorem reverse_loop_step (s : List Byte) (B : Nat) (hB2 : B < 2 ^ 31) (i : Nat)
    (fuel off nr nw nl nc mx nr2 nw2 nl2 nc2 mx2 : Nat) (w : Bool) (d inb outb : List Byte)
    (hi : i ≤ mx)
    (hout : d.length + ((s.drop i).take (min B MAX_RW_COUNT)).length ≤ mx2) :
    reverse_loop (fuel + 1) (i : Int) B ⟨s, off, w, [], nr, nw, nl, nc, mx⟩
        ⟨d, d.length, true, [], nr2, nw2, nl2, nc2, mx2⟩ inb outb =
      reverse_loop fuel (to_int ((i : Int) - B)) B
        ⟨s, i + ((s.drop i).take (min B MAX_RW_COUNT)).length, w, [], nr + 1, nw, nl + 1, nc,
          mx⟩
        ⟨d ++ ((s.drop i).take (min B MAX_RW_COUNT)).reverse,
          (d ++ ((s.drop i).take (min B MAX_RW_COUNT)).reverse).length, true, [],
          nr2, nw2 + 1, nl2, nc2, mx2⟩
        ((s.drop i).take (min B MAX_RW_COUNT)
          ++ inb.drop ((s.drop i).take (min B MAX_RW_COUNT)).length)
        (((s.drop i).take (min B MAX_RW_COUNT)).reverse
          ++ outb.drop ((s.drop i).take (min B MAX_RW_COUNT)).length) := by
  have hlen : ((s.drop i).take (min B MAX_RW_COUNT)).length ≤ B := by
    rw [List.length_take]
    exact le_trans (Nat.min_le_left _ _) (Nat.min_le_left _ _)
  have hlen2 : ((s.drop i).take (min B MAX_RW_COUNT)).length ≤ MAX_RW_COUNT := by
    rw [List.length_take]
    exact le_trans (Nat.min_le_left _ _) (Nat.min_le_right _ _)
  have hn : to_int (((s.drop i).take (min B MAX_RW_COUNT)).length : Int)
      = (((s.drop i).take (min B MAX_RW_COUNT)).length : Int) :=
    to_int_small _ (by omega) (by omega)
  have h0 : (i : Int) ≥ 0 := by omega
  have h1 : ¬ ((i : Int) = -1) := by omega
  have h2 : ¬ ((((s.drop i).take (min B MAX_RW_COUNT)).length : Int) = -1) := by omega
  have h3 : ((((s.drop i).take (min B MAX_RW_COUNT)).length : Int) % 2 ^ 64).toNat
      = ((s.drop i).take (min B MAX_RW_COUNT)).length := by
    omega
  have h4 : List.take ((s.drop i).take (min B MAX_RW_COUNT)).length
      ((s.drop i).take (min B MAX_RW_COUNT)
        ++ inb.drop ((s.drop i).take (min B MAX_RW_COUNT)).length)
      = (s.drop i).take (min B MAX_RW_COUNT) :=
    List.take_left' rfl
  have h5 : List.take ((s.drop i).take (min B MAX_RW_COUNT)).length
      (((s.drop i).take (min B MAX_RW_COUNT)).reverse
        ++ outb.drop ((s.drop i).take (min B MAX_RW_COUNT)).length)
        = ((s.drop i).take (min B MAX_RW_COUNT)).reverse :=
    List.take_left' (List.length_reverse _)
  have h6 : ¬ ((i : Int) < 0) := by omega
  have h7 : ¬ ((mx : Int) < (i : Int)) := by omega
  have hw := sys_write_append d ((s.drop i).take (min B MAX_RW_COUNT)).reverse nr2 nw2 nl2 nc2
    mx2 (by rw [List.length_reverse]; exact hlen2) (by rw [List.length_reverse]; exact hout)
  rw [reverse_loop]
  simp only [sys_lseek, sys_read, Backend.fault, List.headD_nil, List.tail_nil, Bool.false_or,
    decide_eq_true_eq, h0, h1, h6, h7, if_true, if_false, Bool.false_eq_true, hn, h2, h3, h4,
    h5, Int.toNat_ofNat, hw, List.length_reverse, Int.toNat_natCast, decide_False,
    Bool.or_self]

/-- The loop of `reverse.c` from block `m` down, when the later blocks have
been written and no block is cut by the limit on one `read`. -/
theorem reverse_loop_from (s : List Byte) (B : Nat) (hs : s.length < 2 ^ 31)
    (hB1 : 1 ≤ B) (hB2 : B < 2 ^ 31) (hcap : B ≤ MAX_RW_COUNT ∨ s.length ≤ MAX_RW_COUNT)
    (mx mx2 : Nat) (hmx : s.length ≤ mx) (hmx2 : s.length ≤ mx2) :
    ∀ (m fuel off nr nw nl nc nr2 nw2 nl2 nc2 : Nat) (w : Bool) (inb outb : List Byte),
      m * B ≤ s.length → m + 1 < fuel →
      ∃ k1 k2,
        reverse_loop fuel ((m * B : Nat) : Int) B ⟨s, off, w, [], nr, nw, nl, nc, mx⟩
          ⟨(s.drop ((m + 1) * B)).reverse, (s.drop ((m + 1) * B)).reverse.length, true, [],
            nr2, nw2, nl2, nc2, mx2⟩ inb outb = Run.done (0, k1, k2) ∧
        k2.data = s.reverse ∧ k2.faults = [] := by
  have htake : ∀ i : Nat, (s.drop i).take (min B MAX_RW_COUNT) = (s.drop i).take B := by
    intro i
    rw [List.take_eq_take, List.length_drop]
    omega
  have hout : ∀ m : Nat, m * B ≤ s.length →
      (s.drop ((m + 1) * B)).reverse.length
        + ((s.drop (m * B)).take (min B MAX_RW_COUNT)).length ≤ mx2 := by
    intro m hm
    have e : (m + 1) * B = m * B + B := by rw [Nat.add_mul, Nat.one_mul]
    rw [List.length_reverse, List.length_drop, List.length_take, List.length_drop, e]
    omega
  intro m
  induction m with
  | zero =>
    intro fuel off nr nw nl nc nr2 nw2 nl2 nc2 w inb outb hm hfuel
    obtain ⟨fuel, rfl⟩ : ∃ f, fuel = f + 2 := ⟨fuel - 2, by omega⟩
    have hneg : ¬ (to_int (((0 * B : Nat) : Int) - B) ≥ 0) := by
      rw [to_int_small _ (by omega) (by omega)]
      omega
    rw [reverse_loop_step s B hB2 (0 * B) _ _ _ _ _ _ _ _ _ _ _ _ _ _ _ _ (by omega)
      (hout 0 hm), htake, reverse_block, reverse_loop]
    simp only [hneg, if_false]
    refine ⟨_, _, rfl, ?_, rfl⟩
    simp
  | succ m ih =>
    intro fuel off nr nw nl nc nr2 nw2 nl2 nc2 w inb outb hm hfuel
    obtain ⟨fuel, rfl⟩ : ∃ f, fuel = f + 1 := ⟨fuel - 1, by omega⟩
    have hi : to_int ((((m + 1) * B : Nat) : Int) - B) = ((m * B : Nat) : Int) := by
      have e : (((m + 1) * B : Nat) : Int) - B = ((m * B : Nat) : Int) := by
        rw [Nat.add_mul, Nat.one_mul]
        omega
      rw [e]
      exact to_int_small _ (by omega) (by
        have : m * B ≤ (m + 1) * B := Nat.mul_le_mul_right B (Nat.le_succ m)
        omega)
    rw [reverse_loop_step s B hB2 ((m + 1) * B) _ _ _ _ _ _ _ _ _ _ _ _ _ _ _ _ (by omega)
      (hout (m + 1) hm), htake, reverse_block, hi]
    exact ih fuel _ _ _ _ _ _ _ _ _ w _ _
      (le_trans (Nat.mul_le_mul_right B (Nat.le_succ m)) hm) (by omega)

/-- The part of C14 the code has (the reference `reverse` program reverses the
bytes of a file): for every input contents `s` shorter than 2^31
bytes and every block size `B >= 1`, the default 8192 or an `int` given on the
command line, such that `B` or the length of `s` is at most 0x7ffff000, with
all backend calls and both allocations succeeding and whatever the output path
held before, the program terminates (within `length s + 2` tests of the loop
condition) with exit status 0 and leaves the output file equal to `s` reversed
byte for byte, whatever `B` is, also when the length is 0 or a multiple of
`B`. -/
theorem reverse_reverses (s : List Byte) (hs : s.length < 2 ^ 31) (block : Option Int)
    (hblock : ∀ v, block = some v → 1 ≤ v ∧ v < 2 ^ 31)
    (hcap : reverse_buffer_size block ≤ MAX_RW_COUNT ∨ s.length ≤ MAX_RW_COUNT)
    (old : Option (List Byte)) (inb outb : List Byte) (fuel : Nat)
    (hfuel : s.length + 1 < fuel) :
    ∃ k, reverse_main fuel block (OpenEnv.plain (some s)) (OpenEnv.plain old)
        (some inb) (some outb) = Run.done (0, some k) ∧
      k.data = s.reverse := by
  have hB : 1 ≤ reverse_buffer_size block ∧ reverse_buffer_size block < 2 ^ 31 := by
    cases block with
    | none => exact ⟨by decide, by decide⟩
    | some v =>
      obtain ⟨h1, h2⟩ := hblock v rfl
      simp only [reverse_buffer_size]
      omega
  obtain ⟨hB1, hB2⟩ := hB
  have h_in : sys_open (OpenEnv.plain (some s)) [OFlag.O_RDONLY]
      = some ⟨s, 0, false, [], 0, 0, 0, 0, EXT4_MAXBYTES⟩ := rfl
  have h_out : sys_open (OpenEnv.plain old) [OFlag.O_CREAT, OFlag.O_WRONLY, OFlag.O_TRUNC]
      = some ⟨[], 0, true, [], 0, 0, 0, 0, EXT4_MAXBYTES⟩ := by
    cases old <;> rfl
  have h_size : get_file_size ⟨s, 0, false, [], 0, 0, 0, 0, EXT4_MAXBYTES⟩
      = some (s.length, ⟨s, 0, false, [], 0, 0, 0, 0, EXT4_MAXBYTES⟩) := by
    simp [get_file_size, sys_fstat, Backend.fault]
  have hlim : s.length ≤ EXT4_MAXBYTES := by
    unfold EXT4_MAXBYTES
    omega
  unfold reverse_main
  simp only [h_in, h_out, h_size]
  generalize reverse_buffer_size block = B at hB1 hB2 hcap
  have hB0 : ¬ (B = 0) := by omega
  simp only [hB0, if_false]
  have hmul : s.length / B * B ≤ s.length := Nat.div_mul_le_self _ _
  have hi : to_int ((s.length : Int) - (s.length : Int) % (B : Int))
      = ((s.length / B * B : Nat) : Int) := by
    have e : (s.length : Int) - (s.length : Int) % (B : Int) = ((s.length / B * B : Nat) : Int) := by
      have := Nat.div_add_mod s.length B
      have h2 : ((s.length % B : Nat) : Int) = (s.length : Int) % (B : Int) := Int.natCast_mod _ _
      rw [← h2, Nat.mul_comm]
      omega
    rw [e]
    exact to_int_small _ (by omega) (by omega)
  have hempty : s.drop ((s.length / B + 1) * B) = [] := by
    apply List.drop_eq_nil_of_le
    have := Nat.div_add_mod s.length B
    have := Nat.mod_lt s.length (show 0 < B by omega)
    rw [Nat.add_mul, Nat.one_mul, Nat.mul_comm]
    omega
  have hle : s.length / B ≤ s.length := Nat.div_le_self _ _
  obtain ⟨k1, k2, hrun, hdata, hfaults⟩ :=
    reverse_loop_from s B hs hB1 hB2 hcap EXT4_MAXBYTES EXT4_MAXBYTES hlim hlim
      (s.length / B) fuel 0 0 0 0 0 0 0 0 0 false inb outb hmul (by omega)
  rw [hempty] at hrun
  rw [hi]
  simp only [List.reverse_nil, List.length_nil] at hrun
  rw [hrun]
  refine ⟨(sys_close k2).2, rfl, ?_⟩
  rw [← hdata]
  unfold sys_close
  dsimp only
  split <;> rfl

/-- An instance of `reverse_reverses`: "hello world" reversed in blocks of 4 bytes, over an output
path that held other bytes. -/
theorem reverse_reverses_witness :
    ((bytes "hello world").length < 2 ^ 31 ∧
      (∀ v : Int, some (4 : Int) = some v → 1 ≤ v ∧ v < 2 ^ 31) ∧
      (reverse_buffer_size (some 4) ≤ MAX_RW_COUNT ∨
        (bytes "hello world").length ≤ MAX_RW_COUNT) ∧
      (bytes "hello world").length + 1 < 13) ∧
    (∃ k, reverse_main 13 (some 4) (OpenEnv.plain (some (bytes "hello world")))
        (OpenEnv.plain (some (bytes "zzz"))) (some (List.replicate 4 0))
        (some (List.replicate 4 0)) = Run.done (0, some k) ∧
      k.data = (bytes "hello world").reverse) ∧
    (bytes "hello world").reverse = bytes "dlrow olleh" :=
  have hv : ∀ v : Int, some (4 : Int) = some v → 1 ≤ v ∧ v < 2 ^ 31 := by
    intro v h
    cases h
    decide
  ⟨⟨by decide, hv, by decide, by decide⟩,
    reverse_reverses (bytes "hello world") (by decide) (some 4) hv (by decide)
      (some (bytes "zzz")) (List.replicate 4 0) (List.replicate 4 0) 13 (by decide),
    by decide⟩

/-- Runs of `reverse.c`: a length that is no multiple of the block size, one
that is, and the empty file with the default block size. -/
theorem reverse_examples :
    reverse_main 100 (some 4) (OpenEnv.plain (some (bytes "hello world")))
        (OpenEnv.plain (some (bytes "zzz"))) (some (List.replicate 4 0))
        (some (List.replicate 4 0))
      = Run.done (0, some ⟨bytes "dlrow olleh", 11, true, [], 0, 3, 0, 1, EXT4_MAXBYTES⟩) ∧
    reverse_main 100 (some 4) (OpenEnv.plain (some (bytes "hello wo"))) (OpenEnv.plain none)
        (some (List.replicate 4 0)) (some (List.replicate 4 0))
      = Run.done (0, some ⟨bytes "ow olleh", 8, true, [], 0, 3, 0, 1, EXT4_MAXBYTES⟩) ∧
    reverse_main 100 none (OpenEnv.plain (some [])) (OpenEnv.plain none)
        (some (List.replicate 4 0)) (some (List.replicate 4 0))
      = Run.done (0, some ⟨[], 0, true, [], 0, 1, 0, 1, EXT4_MAXBYTES⟩) := by
  decide

/-- The program on an input of `B` bytes with block size `B` above
0x7ffff000: the one block is read short, and the output is the first
0x7ffff000 bytes reversed. -/
theorem reverse_short (s inb outb : List Byte) (old : Option (List Byte)) (fuel B : Nat)
    (hfuel : 3 ≤ fuel) (hs : s.length = B) (hB2 : B < 2 ^ 31) (hB : MAX_RW_COUNT < B) :
    ∃ k, reverse_main fuel (some (B : Int)) (OpenEnv.plain (some s)) (OpenEnv.plain old)
        (some inb) (some outb) = Run.done (0, some k) ∧
      k.data = (s.take MAX_RW_COUNT).reverse ∧ k.data.length = MAX_RW_COUNT := by
  obtain ⟨f, rfl⟩ : ∃ g, fuel = g + 3 := ⟨fuel - 3, by omega⟩
  have h_in : sys_open (OpenEnv.plain (some s)) [OFlag.O_RDONLY]
      = some ⟨s, 0, false, [], 0, 0, 0, 0, EXT4_MAXBYTES⟩ := rfl
  have h_out : sys_open (OpenEnv.plain old) [OFlag.O_CREAT, OFlag.O_WRONLY, OFlag.O_TRUNC]
      = some ⟨[], 0, true, [], 0, 0, 0, 0, EXT4_MAXBYTES⟩ := by
    cases old <;> rfl
  have h_size : get_file_size ⟨s, 0, false, [], 0, 0, 0, 0, EXT4_MAXBYTES⟩
      = some (s.length, ⟨s, 0, false, [], 0, 0, 0, 0, EXT4_MAXBYTES⟩) := by
    simp [get_file_size, sys_fstat, Backend.fault]
  have hcap : MAX_RW_COUNT = 2147479552 := rfl
  have hext : EXT4_MAXBYTES = 17592186040320 := rfl
  have hbs : reverse_buffer_size (some (B : Int)) = B := by
    simp only [reverse_buffer_size]
    omega
  have hB0 : ¬ (B = 0) := by omega
  have hi0 : to_int ((B : Int) - (B : Int) % (B : Int)) = ((B : Nat) : Int) := by
    rw [Int.emod_self, Int.sub_zero]
    exact to_int_small _ (by omega) (by omega)
  have hi1 : to_int ((B : Int) - (B : Int)) = ((0 : Nat) : Int) := by
    rw [Int.sub_self]
    rfl
  have hi2 : ¬ (to_int (((0 : Nat) : Int) - (B : Int)) ≥ 0) := by
    rw [to_int_small _ (by omega) (by omega)]
    omega
  have hmin : min B MAX_RW_COUNT = MAX_RW_COUNT := by omega
  have hdrop : s.drop B = [] := List.drop_eq_nil_of_le (by omega)
  have hlen2 : (s.take MAX_RW_COUNT).length = MAX_RW_COUNT := by
    rw [List.length_take]
    omega
  have hout1 : ([] : List Byte).length
      + ((s.drop B).take (min B MAX_RW_COUNT)).length ≤ EXT4_MAXBYTES := by
    rw [hdrop, List.take_nil, List.length_nil]
    omega
  have hout2 : (([] : List Byte) ++ ((s.drop B).take (min B MAX_RW_COUNT)).reverse).length
      + ((s.drop 0).take (min B MAX_RW_COUNT)).length ≤ EXT4_MAXBYTES := by
    rw [hdrop, hmin, List.drop_zero, hlen2, List.take_nil, List.reverse_nil, List.append_nil,
      List.length_nil]
    omega
  unfold reverse_main
  simp only [h_in, h_out, h_size, hbs, hB0, if_false, hs, hi0]
  have e1 := reverse_loop_step s B hB2 B (f + 2) 0 0 0 0 0 EXT4_MAXBYTES 0 0 0 0
    EXT4_MAXBYTES false [] inb outb (by omega) hout1
  simp only [List.length_nil] at e1
  rw [show f + 3 = f + 2 + 1 from rfl, e1, hi1, show f + 2 = f + 1 + 1 from rfl,
    reverse_loop_step s B hB2 0 (f + 1) _ _ _ _ _ _ _ _ _ _ _ _ _ _ _ (Nat.zero_le _) hout2,
    reverse_loop]
  simp only [hi2, if_false]
  refine ⟨_, rfl, ?_, ?_⟩
  · unfold sys_close
    simp only [Backend.fault, List.headD_nil, Bool.false_eq_true, if_false, hdrop, hmin,
      List.take_nil, List.reverse_nil, List.append_nil, List.nil_append, List.drop_zero]
  · unfold sys_close
    simp only [Backend.fault, List.headD_nil, Bool.false_eq_true, if_false, hdrop, hmin,
      List.take_nil, List.reverse_nil, List.append_nil, List.nil_append, List.drop_zero,
      List.length_reverse, hlen2]

/-- C14 fails on the code for a block size above 0x7ffff000: on an input of
2^31 - 1 bytes with block size 2^31 - 1 (buffers of that size) the one `read`
of the block is short, and the program ends with exit status 0 and an output
of 0x7ffff000 bytes, the reverse of the first 0x7ffff000 bytes of the input,
not the input reversed. -/
theorem reverse_short_read :
    (List.replicate 2147483647 (0 : Byte)).length = 2147483647 ∧
    MAX_RW_COUNT = 2147479552 ∧
    ∃ k, reverse_main 3 (some ((2147483647 : Nat) : Int))
        (OpenEnv.plain (some (List.replicate 2147483647 0))) (OpenEnv.plain none)
        (some (List.replicate 2147483647 0)) (some (List.replicate 2147483647 0))
        = Run.done (0, some k) ∧
      k.data = ((List.replicate 2147483647 (0 : Byte)).take MAX_RW_COUNT).reverse ∧
      k.data.length = MAX_RW_COUNT :=
  ⟨List.length_replicate _ _, rfl,
    reverse_short (List.replicate 2147483647 0) (List.replicate 2147483647 0)
      (List.replicate 2147483647 0) none 3 2147483647 (by decide)
      (List.length_replicate _ _) (by decide) (by decide)⟩

end Io300
